import Mathlib

/-!
Verification of the zencan CANopen node library.

This file gives a shallow embedding, in Lean, of the parts of the zencan
repository that the checked claims are about:

* node IDs (`zencan-common/src/node_id.rs`),
* PDO mapping values (`zencan-common/src/pdo.rs`),
* the storage command object (`zencan-node/src/storage.rs`),
* the SDO server state machine (`zencan-node/src/sdo_server.rs`),
* the mailbox dispatch and transmit priority (`zencan-node/src/node_mbox.rs`,
  `zencan-node/src/priority_queue.rs`, `zencan-node/src/sdo_server/sdo_comms.rs`),
* the NMT lifecycle slice of `Node::process` (`zencan-node/src/node.rs`).

Machine integers are embedded as `Nat` with explicit `% 2^w` where overflow
matters.  Fallible operations return `Option` or `Except`.  Rust panics
(`unwrap`, `todo!`) are embedded as `Option.none` results.

Types from repository modules that are not present in the source tree
(`zencan-common`'s `sdo`, `objects`, `messages` and `lss` modules, and
`zencan-node`'s `pdo` module) are modelled from the specification; each such
definition carries a doc comment starting with `Modelled from the spec:`.
-/

/-! ### Byte-list helpers -/

/-- The bytes of a `u32` in little-endian order, as produced by `to_le_bytes`. -/
def leBytes4 (v : Nat) : List Nat :=
  [v % 256, v / 256 % 256, v / 65536 % 256, v / 16777216 % 256]

/-- The `u32` denoted by four little-endian bytes, as read by `from_le_bytes`. -/
def fromLeBytes4 (l : List Nat) : Nat :=
  match l with
  | [b0, b1, b2, b3] => b0 + b1 * 256 + b2 * 65536 + b3 * 16777216
  | _ => 0

/-- Overwrite `bytes` into `dat` starting at `off`, keeping the rest; used to
model in-place slice writes such as `buf[pos..pos+n].copy_from_slice(..)`. -/
def listOverwrite (dat : List Nat) (off : Nat) (bytes : List Nat) : List Nat :=
  dat.take off ++ bytes ++ dat.drop (off + bytes.length)

/-- Pad a byte list with zeros on the right up to length `n`, modelling a
zero-initialised fixed buffer partially filled from its start. -/
def padTo (n : Nat) (l : List Nat) : List Nat :=
  l ++ List.replicate (n - l.length) 0

/-! ### Node IDs (`zencan-common/src/node_id.rs`) -/

/-- Embeds `enum NodeId`: `Unconfigured` (numeric 255) or `Configured(v)`.
The payload of `Configured` is the raw `u8` held by `ConfiguredNodeId`. -/
inductive NodeId where
  | Unconfigured : NodeId
  | Configured : Nat → NodeId
deriving DecidableEq, Repr

/-- Embeds `ConfiguredNodeId::new`: `Ok` iff `(value > 0 && value < 128) || value == 255`. -/
def ConfiguredNodeId.new (value : Nat) : Option Nat :=
  if (value > 0 ∧ value < 128) ∨ value = 255 then some value else none

/-- Embeds `NodeId::new`: 255 maps to `Unconfigured`, otherwise defers to
`ConfiguredNodeId::new`. -/
def NodeId.new (value : Nat) : Option NodeId :=
  if value = 255 then some NodeId.Unconfigured
  else match ConfiguredNodeId.new value with
    | some id => some (NodeId.Configured id)
    | none => none

/-- Embeds `impl TryFrom<u8> for NodeId`: 255 maps to `Unconfigured` and every
other value is accepted as `Configured` without validation. -/
def NodeId.tryFrom (value : Nat) : Option NodeId :=
  if value = 255 then some NodeId.Unconfigured
  else some (NodeId.Configured value)

/-- Embeds `NodeId::is_configured`. -/
def NodeId.is_configured : NodeId → Bool
  | NodeId.Unconfigured => false
  | NodeId.Configured _ => true

/-- Embeds `NodeId::raw`. -/
def NodeId.raw : NodeId → Nat
  | NodeId.Unconfigured => 255
  | NodeId.Configured v => v

/-! ### PDO mapping values (`zencan-common/src/pdo.rs`) -/

/-- Embeds `struct PdoMapping { index: u16, sub: u8, size: u8 }`. -/
structure PdoMapping where
  index : Nat
  sub : Nat
  size : Nat
deriving DecidableEq, Repr

/-- Embeds `PdoMapping::to_object_value`:
`((index as u32) << 16) | ((sub as u32) << 8) | (size as u32)`. -/
def PdoMapping.to_object_value (m : PdoMapping) : Nat :=
  (m.index <<< 16) ||| (m.sub <<< 8) ||| m.size

/-- Embeds `PdoMapping::from_object_value`: `index = (value >> 16) as u16`,
`sub = ((value >> 8) & 0xff) as u8`, `size = (value & 0xff) as u8`. -/
def PdoMapping.from_object_value (value : Nat) : PdoMapping :=
  { index := (value >>> 16) % 65536
    sub := (value >>> 8) &&& 255
    size := value &&& 255 }

/-! ### Storage command object (`zencan-node/src/storage.rs`) -/

/-- Embeds `values::SAVE_CMD` from `zencan-common/src/constants.rs`. -/
def SAVE_CMD : Nat := 0x73617665

/-- The SDO abort codes used by the embedded components (the `AbortCode` enum
of the absent `zencan-common` `sdo` module; the constructor set is the
taxonomy listed by the spec). -/
inductive AbortCode where
  | NoSuchObject | NoSuchSubIndex | ReadOnly | UnsupportedAccess
  | DataTypeMismatch | DataTypeMismatchLengthHigh | DataTypeMismatchLengthLow
  | ToggleNotAlternated | InvalidCommandSpecifier | CrcError
  | IncompatibleParameter | ResourceNotAvailable
deriving DecidableEq, Repr

/-- Embeds `StorageContext`: the `store_flag` and `store_supported` atomics. -/
structure StorageContext where
  store_flag : Bool
  store_supported : Bool
deriving DecidableEq, Repr

/-- Embeds `StorageCommandObject::write` (the `ObjectAccess::write` impl):
sub 0 is read-only; sub 1 takes exactly 4 bytes, compares the little-endian
`u32` against `SAVE_CMD` and either sets the store flag, aborts
`ResourceNotAvailable` (no callback registered) or aborts
`IncompatibleParameter`; other subs abort `NoSuchSubIndex`.
Returns the updated context together with the `Result`. -/
def StorageCommandObject.write (ctx : StorageContext) (sub : Nat)
    (dat : List Nat) : StorageContext × Option AbortCode :=
  match sub with
  | 0 => (ctx, some AbortCode.ReadOnly)
  | 1 =>
    if dat.length ≠ 4 then (ctx, some AbortCode.DataTypeMismatch)
    else
      let value := fromLeBytes4 dat
      if value = SAVE_CMD then
        if ctx.store_supported then ({ ctx with store_flag := true }, none)
        else (ctx, some AbortCode.ResourceNotAvailable)
      else (ctx, some AbortCode.IncompatibleParameter)
  | _ => (ctx, some AbortCode.NoSuchSubIndex)

/-! ### Theorems: node IDs, PDO mapping values, storage command -/

/-- Helper: `to_object_value` as plain arithmetic, given field bounds. -/
lemma PdoMapping.to_object_value_arith (m : PdoMapping)
    (hs : m.sub < 256) (hz : m.size < 256) :
    m.to_object_value = m.index * 65536 + m.sub * 256 + m.size := by
  unfold PdoMapping.to_object_value
  have e1 : m.index <<< 16 = 2 ^ 16 * m.index := by rw [Nat.shiftLeft_eq]; ring
  have e2 : m.sub <<< 8 = 2 ^ 8 * m.sub := by rw [Nat.shiftLeft_eq]; ring
  rw [e1, e2]
  have h1 : 2 ^ 16 * m.index ||| 2 ^ 8 * m.sub = 2 ^ 16 * m.index + 2 ^ 8 * m.sub :=
    (Nat.mul_add_lt_is_or (by omega : 2 ^ 8 * m.sub < 2 ^ 16) m.index).symm
  rw [h1]
  have h2 : 2 ^ 16 * m.index + 2 ^ 8 * m.sub = 2 ^ 8 * (2 ^ 8 * m.index + m.sub) := by ring
  rw [h2]
  have h3 : 2 ^ 8 * (2 ^ 8 * m.index + m.sub) ||| m.size
      = 2 ^ 8 * (2 ^ 8 * m.index + m.sub) + m.size :=
    (Nat.mul_add_lt_is_or (by omega : m.size < 2 ^ 8) _).symm
  rw [h3]
  ring

/-- Helper: `x &&& 255` is `x % 256`. -/
lemma and255_eq_mod (x : Nat) : x &&& 255 = x % 256 := by
  have h := Nat.and_pow_two_sub_one_eq_mod x 8
  norm_num at h
  exact h

/-- Helper: `from_object_value` as plain arithmetic. -/
lemma PdoMapping.from_object_value_arith (v : Nat) :
    PdoMapping.from_object_value v =
      { index := v / 65536 % 65536, sub := v / 256 % 256, size := v % 256 } := by
  unfold PdoMapping.from_object_value
  rw [Nat.shiftRight_eq_div_pow, Nat.shiftRight_eq_div_pow, and255_eq_mod, and255_eq_mod]

/-- Claim C10: `PdoMapping::to_object_value` and `PdoMapping::from_object_value`
are mutually inverse: for every mapping with in-range fields (`index : u16`,
`sub, size : u8`), decoding the encoding gives the mapping back, and for every
`u32` value, encoding the decoding gives the value back. -/
theorem C10_pdo_mapping_roundtrip (m : PdoMapping) (v : Nat)
    (hi : m.index < 65536) (hs : m.sub < 256) (hz : m.size < 256)
    (hv : v < 4294967296) :
    PdoMapping.from_object_value m.to_object_value = m ∧
    (PdoMapping.from_object_value v).to_object_value = v := by
  constructor
  · rw [m.to_object_value_arith hs hz, PdoMapping.from_object_value_arith]
    have h1 : (m.index * 65536 + m.sub * 256 + m.size) / 65536 % 65536 = m.index := by omega
    have h2 : (m.index * 65536 + m.sub * 256 + m.size) / 256 % 256 = m.sub := by omega
    have h3 : (m.index * 65536 + m.sub * 256 + m.size) % 256 = m.size := by omega
    rw [h1, h2, h3]
  · rw [PdoMapping.from_object_value_arith,
      PdoMapping.to_object_value_arith _
        (by show v / 256 % 256 < 256; omega) (by show v % 256 < 256; omega)]
    show v / 65536 % 65536 * 65536 + v / 256 % 256 * 256 + v % 256 = v
    omega

/-- Witness for C10 at a concrete mapping and a concrete `u32`. -/
theorem C10_pdo_mapping_roundtrip_witness :
    (0x2000 : Nat) < 65536 ∧ (3 : Nat) < 256 ∧ (16 : Nat) < 256 ∧
    (0x20000310 : Nat) < 4294967296 ∧
    (PdoMapping.from_object_value (PdoMapping.to_object_value ⟨0x2000, 3, 16⟩)
        = ⟨0x2000, 3, 16⟩ ∧
      (PdoMapping.from_object_value 0x20000310).to_object_value = 0x20000310) :=
  ⟨by decide, by decide, by decide, by decide,
    C10_pdo_mapping_roundtrip ⟨0x2000, 3, 16⟩ 0x20000310
      (by decide) (by decide) (by decide) (by decide)⟩

/-- Claim C4 (code bug): `NodeId::try_from` performs no validation at all
(every non-255 value is accepted as `Configured`), and `ConfiguredNodeId::new`
also accepts 255, both contradicting their own doc comments and the claim;
`NodeId::new` alone validates as the claim states. -/
theorem C4_nodeid_validation_divergence :
    NodeId.tryFrom 0 = some (NodeId.Configured 0) ∧
    NodeId.tryFrom 200 = some (NodeId.Configured 200) ∧
    ConfiguredNodeId.new 255 = some 255 ∧
    NodeId.new 0 = none ∧
    NodeId.new 128 = none ∧
    NodeId.new 254 = none ∧
    NodeId.new 255 = some NodeId.Unconfigured ∧
    NodeId.new 1 = some (NodeId.Configured 1) ∧
    NodeId.new 127 = some (NodeId.Configured 127) := by
  decide

/-- Counterexample for C3: writing the ASCII bytes of the string with the
letters s, a, v, e (the little-endian `u32` 0x65766173) to sub 1 aborts
with `IncompatibleParameter` and does not set the store flag, even with a
store callback registered — the claim says this write succeeds and sets the
store-pending flag. -/
theorem C3_save_ascii_counterexample :
    StorageCommandObject.write ⟨false, true⟩ 1 [0x73, 0x61, 0x76, 0x65]
      = (⟨false, true⟩, some AbortCode.IncompatibleParameter) := by
  decide

/-- Claim C3 as amended: the magic value is the `u32` 0x73617665 (wire bytes
0x65 0x76 0x61 0x73 in little-endian order). For every 4-byte write to object
0x1010 sub 1: the magic value sets the store-pending flag and succeeds when a
store callback is registered, aborts `ResourceNotAvailable` when none is; any
other value aborts `IncompatibleParameter` and leaves the flag unchanged
(in particular clear, when it was clear). -/
theorem C3_storage_write_amended (ctx : StorageContext) (dat : List Nat)
    (h4 : dat.length = 4) :
    fromLeBytes4 [0x65, 0x76, 0x61, 0x73] = SAVE_CMD ∧
    (fromLeBytes4 dat = SAVE_CMD →
      (ctx.store_supported = true →
        StorageCommandObject.write ctx 1 dat = ({ ctx with store_flag := true }, none)) ∧
      (ctx.store_supported = false →
        StorageCommandObject.write ctx 1 dat = (ctx, some AbortCode.ResourceNotAvailable))) ∧
    (fromLeBytes4 dat ≠ SAVE_CMD →
      StorageCommandObject.write ctx 1 dat = (ctx, some AbortCode.IncompatibleParameter)) := by
  refine ⟨by decide, ?_, ?_⟩
  · intro hmagic
    constructor
    · intro hsup
      simp [StorageCommandObject.write, h4, hmagic, hsup]
    · intro hsup
      simp [StorageCommandObject.write, h4, hmagic, hsup]
  · intro hmagic
    simp [StorageCommandObject.write, h4, hmagic]

/-- Witness for C3's amended theorem: concrete magic and non-magic writes. -/
theorem C3_storage_write_amended_witness :
    ([0x65, 0x76, 0x61, 0x73] : List Nat).length = 4 ∧
    (fromLeBytes4 [0x65, 0x76, 0x61, 0x73] = SAVE_CMD →
      ((⟨false, true⟩ : StorageContext).store_supported = true →
        StorageCommandObject.write ⟨false, true⟩ 1 [0x65, 0x76, 0x61, 0x73]
          = (⟨true, true⟩, none)) ∧
      ((⟨false, true⟩ : StorageContext).store_supported = false →
        StorageCommandObject.write ⟨false, true⟩ 1 [0x65, 0x76, 0x61, 0x73]
          = (⟨false, true⟩, some AbortCode.ResourceNotAvailable))) :=
  ⟨by decide, fun h => ((C3_storage_write_amended ⟨false, true⟩ _ (by decide)).2.1 h)⟩

/-! ### Object dictionary model

The `zencan-common` `objects` module is not present in the source tree; the
object-dictionary access interface used by the SDO server is modelled here
from the specification (sub-object raw-access contract, §3 and §4.1). -/

/-- Modelled from the spec: the sub-object data types of §3 (string types
carry their capacity in `SubInfo.size` rather than in the type). -/
inductive DataType where
  | Boolean | Int8 | Int16 | Int32 | Int64
  | UInt8 | UInt16 | UInt32 | UInt64 | Real32 | Real64
  | VisibleString | OctetString | UnicodeString
  | TimeOfDay | TimeDifference | Domain
deriving DecidableEq, Repr

/-- Modelled from the spec: `DataType::is_str`, true for the string types,
whose writes may be shorter than the declared size. -/
def DataType.is_str : DataType → Bool
  | DataType.VisibleString | DataType.OctetString | DataType.UnicodeString => true
  | _ => false

/-- Modelled from the spec: the access types of §3. -/
inductive AccessType where
  | Ro | Wo | Rw | Const
deriving DecidableEq, Repr

/-- Modelled from the spec: `AccessType::is_writable`, true for `Rw` and `Wo`. -/
def AccessType.is_writable : AccessType → Bool
  | AccessType.Rw | AccessType.Wo => true
  | _ => false

/-- Modelled from the spec: the sub-object metadata returned by `sub_info`
(§3), restricted to the attributes the SDO server consults. -/
structure SubInfo where
  size : Nat
  data_type : DataType
  access_type : AccessType
deriving DecidableEq, Repr

/-- Modelled from the spec: one sub-object — its metadata plus its stored
bytes (`dat.length = info.size` is the well-formedness condition). -/
structure SubObj where
  info : SubInfo
  dat : List Nat
deriving DecidableEq, Repr

/-- Modelled from the spec: an object is a table of sub-objects addressed by
an 8-bit sub-index. -/
structure ModelObj where
  subs : List (Nat × SubObj)
deriving DecidableEq, Repr

/-- Look up a sub-object by sub-index. -/
def ModelObj.findSub (o : ModelObj) (sub : Nat) : Option SubObj :=
  (o.subs.find? (fun p => p.1 == sub)).map (fun p => p.2)

/-- Modelled from the spec: `sub_info(sub) → SubInfo | AbortCode`. -/
def ModelObj.sub_info (o : ModelObj) (sub : Nat) : Except AbortCode SubInfo :=
  match o.findSub sub with
  | some sd => Except.ok sd.info
  | none => Except.error AbortCode.NoSuchSubIndex

/-- Modelled from the spec: the logical length of a string sub-object — the
prefix length up to the first zero terminator or the declared length,
whichever is smaller (§4.1). -/
def SubObj.strLen (sd : SubObj) : Nat :=
  min (sd.dat.findIdx (fun b => b == 0)) sd.info.size

/-- Modelled from the spec: `current_size(sub)` for one sub-object — the
logical length for strings, the declared size for every other type (§3). -/
def SubObj.currentSize (sd : SubObj) : Nat :=
  if sd.info.data_type.is_str then sd.strLen else sd.info.size

/-- Modelled from the spec: `current_size(sub) → usize | AbortCode`. -/
def ModelObj.current_size (o : ModelObj) (sub : Nat) : Except AbortCode Nat :=
  match o.findSub sub with
  | some sd => Except.ok sd.currentSize
  | none => Except.error AbortCode.NoSuchSubIndex

/-- Modelled from the spec: `read(sub, offset, buf)` — fills `buf` (here:
returns `len` bytes) from the stored bytes at `offset`; out-of-range access
is refused with `UnsupportedAccess` (§3). -/
def ModelObj.read (o : ModelObj) (sub offset len : Nat) : Except AbortCode (List Nat) :=
  match o.findSub sub with
  | none => Except.error AbortCode.NoSuchSubIndex
  | some sd =>
    if offset + len ≤ sd.dat.length then Except.ok ((sd.dat.drop offset).take len)
    else Except.error AbortCode.UnsupportedAccess

/-- Modelled from the spec: `write(sub, offset, data)` — overwrites the stored
bytes at `offset`; out-of-range access is refused with `UnsupportedAccess`
(§3). -/
def ModelObj.write (o : ModelObj) (sub offset : Nat) (bytes : List Nat) :
    Except AbortCode ModelObj :=
  match o.findSub sub with
  | none => Except.error AbortCode.NoSuchSubIndex
  | some sd =>
    if offset + bytes.length ≤ sd.dat.length then
      Except.ok ⟨o.subs.map (fun p =>
        if p.1 == sub then (p.1, ⟨sd.info, listOverwrite sd.dat offset bytes⟩) else p)⟩
    else Except.error AbortCode.UnsupportedAccess

/-- An object-dictionary entry: an index paired with its object. -/
abbrev ODEntry := Nat × ModelObj

/-- Modelled from the spec: `find_object` — the OD table is sorted by index
and looked up by binary search; modelled as first-match lookup. -/
def find_object (od : List ODEntry) (index : Nat) : Option ModelObj :=
  (od.find? (fun e => e.1 == index)).map (fun e => e.2)

/-- Replace the object stored at `index`, modelling the in-place interior
mutation performed through an object handle. -/
def setObject (od : List ODEntry) (index : Nat) (o : ModelObj) : List ODEntry :=
  od.map (fun e => if e.1 == index then (e.1, o) else e)

/-! ### SDO messages

The `zencan-common` `sdo` module is not present in the source tree; the
request and response types are modelled from the specification (§4.2, §6)
and from the pattern matches of the in-tree server and client code. -/

/-- Modelled from the spec: the SDO requests the server matches on
(`SdoRequest` of the absent sdo module). Fields mirror the server's
pattern matches; the block-transfer arms are `todo!()` in the server. -/
inductive SdoRequest where
  | InitiateUpload (index : Nat) (sub : Nat)
  | InitiateDownload (n : Nat) (e : Bool) (s : Bool) (index : Nat) (sub : Nat) (dat : List Nat)
  | DownloadSegment (t : Bool) (n : Nat) (c : Bool) (dat : List Nat)
  | ReqUploadSegment (t : Bool)
  | InitiateBlockDownload (cc : Bool) (s : Bool) (cs : Nat) (index : Nat) (sub : Nat) (size : Nat)
  | InitiateBlockUpload
  | Abort (index : Nat) (sub : Nat) (abort_code : AbortCode)
deriving DecidableEq, Repr

/-- Modelled from the spec: the SDO responses the server constructs
(`SdoResponse` of the absent sdo module), as matched by the in-tree client. -/
inductive SdoResponse where
  | ConfirmUpload (n : Nat) (e : Bool) (s : Bool) (index : Nat) (sub : Nat) (dat : List Nat)
  | UploadSegment (t : Bool) (n : Nat) (c : Bool) (dat : List Nat)
  | ConfirmDownload (index : Nat) (sub : Nat)
  | ConfirmDownloadSegment (t : Bool)
  | Abort (index : Nat) (sub : Nat) (abort_code : AbortCode)
deriving DecidableEq, Repr

/-- Modelled from the spec: `SdoResponse::abort`. -/
def SdoResponse.abort (index sub : Nat) (code : AbortCode) : SdoResponse :=
  SdoResponse.Abort index sub code

/-- Modelled from the spec: `SdoResponse::expedited_upload` — `e=1`, `s=1`,
`n` counts the unused data bytes (§6). -/
def SdoResponse.expedited_upload (index sub : Nat) (bytes : List Nat) : SdoResponse :=
  SdoResponse.ConfirmUpload (4 - bytes.length) true true index sub (padTo 4 bytes)

/-- Modelled from the spec: `SdoResponse::upload_acknowledge` — `e=0`, `s=1`,
the four data bytes carry the indicated size as a little-endian `u32` (§6). -/
def SdoResponse.upload_acknowledge (index sub size : Nat) : SdoResponse :=
  SdoResponse.ConfirmUpload 0 false true index sub (leBytes4 size)

/-- Modelled from the spec: `SdoResponse::upload_segment` — `n` counts the
unused data bytes, `c` flags the final segment (§6). -/
def SdoResponse.upload_segment (t c : Bool) (bytes : List Nat) : SdoResponse :=
  SdoResponse.UploadSegment t (7 - bytes.length) c (padTo 7 bytes)

/-- Modelled from the spec: `SdoResponse::download_acknowledge`. -/
def SdoResponse.download_acknowledge (index sub : Nat) : SdoResponse :=
  SdoResponse.ConfirmDownload index sub

/-- Modelled from the spec: `SdoResponse::download_segment_acknowledge`. -/
def SdoResponse.download_segment_acknowledge (t : Bool) : SdoResponse :=
  SdoResponse.ConfirmDownloadSegment t

/-! ### SDO server state machine (`zencan-node/src/sdo_server.rs`) -/

/-- Embeds the server's private `enum State`. -/
inductive SdoState where
  | Idle | DownloadSegment | UploadSegment
deriving DecidableEq, Repr

/-- Embeds `struct SdoServer`. -/
structure SdoServer where
  toggle_state : Bool
  state : SdoState
  segment_counter : Nat
  index : Nat
  sub : Nat
deriving DecidableEq, Repr

/-- Embeds `SdoServer::new`. -/
def SdoServer.new : SdoServer :=
  { toggle_state := false, state := SdoState.Idle, segment_counter := 0, index := 0, sub := 0 }

/-- Embeds `SdoServer::validate_download_size`: strings may be written with
any length up to the declared size; every other type requires the exact
declared size.  Returns the abort response on failure (`Err` case). -/
def SdoServer.validate_download_size (srv : SdoServer) (dl_size : Nat)
    (subobj : SubInfo) : Option SdoResponse :=
  if subobj.data_type.is_str then
    if dl_size > subobj.size then
      some (SdoResponse.abort srv.index srv.sub AbortCode.DataTypeMismatchLengthHigh)
    else none
  else
    if dl_size < subobj.size then
      some (SdoResponse.abort srv.index srv.sub AbortCode.DataTypeMismatchLengthLow)
    else if dl_size > subobj.size then
      some (SdoResponse.abort srv.index srv.sub AbortCode.DataTypeMismatchLengthHigh)
    else none

/-- The result of one `handle_request` call: the updated server, the updated
object dictionary, the optional response, and the optional updated index. -/
abbrev SdoStep := SdoServer × List ODEntry × Option SdoResponse × Option Nat

/-- Embeds `SdoServer::handle_request`.  A `none` result embeds a Rust panic
(the `todo!()` block-transfer arms, the `unwrap`s in the segment arms, and
the `usize` subtraction overflows on out-of-range bit fields). -/
def SdoServer.handle_request (srv : SdoServer) (req : SdoRequest)
    (od : List ODEntry) : Option SdoStep :=
  match req with
  | SdoRequest.InitiateUpload index sub =>
    match find_object od index with
    | none => some (srv, od, some (SdoResponse.abort index sub AbortCode.NoSuchObject), none)
    | some obj =>
      let srv1 := { srv with toggle_state := false }
      match obj.current_size sub with
      | Except.error code =>
        some (srv1, od, some (SdoResponse.abort index sub code), none)
      | Except.ok current_size =>
        if current_size ≤ 4 then
          let srv2 := { srv1 with state := SdoState.Idle }
          match obj.read sub 0 current_size with
          | Except.error code =>
            some (srv2, od, some (SdoResponse.abort index sub code), none)
          | Except.ok bytes =>
            some (srv2, od, some (SdoResponse.expedited_upload index sub bytes), none)
        else
          some ({ srv1 with state := SdoState.UploadSegment, index := index, sub := sub, segment_counter := 0 },
            od, some (SdoResponse.upload_acknowledge index sub current_size), none)
  | SdoRequest.InitiateDownload n e s index sub dat =>
    let srv1 := { srv with index := index, sub := sub }
    if e then
      match find_object od index with
      | none =>
        some (srv1, od, some (SdoResponse.abort index sub AbortCode.NoSuchObject), none)
      | some obj =>
        match obj.sub_info sub with
        | Except.error code =>
          some (srv1, od, some (SdoResponse.abort index sub code), none)
        | Except.ok subinfo =>
          if !subinfo.access_type.is_writable then
            some (srv1, od,
              some (SdoResponse.abort srv1.index srv1.sub AbortCode.ReadOnly), none)
          else if n > 4 then none
          else
            let dl_size := 4 - n
            match srv1.validate_download_size dl_size subinfo with
            | some abort_resp =>
              some ({ srv1 with state := SdoState.Idle }, od, some abort_resp, none)
            | none =>
              match obj.write sub 0 (dat.take dl_size) with
              | Except.error code =>
                some (srv1, od, some (SdoResponse.abort index sub code), none)
              | Except.ok obj2 =>
                if dl_size < subinfo.size then
                  match obj2.write sub dl_size [0] with
                  | Except.error code =>
                    some (srv1, setObject od index obj2,
                      some (SdoResponse.abort index sub code), none)
                  | Except.ok obj3 =>
                    some (srv1, setObject od index obj3,
                      some (SdoResponse.download_acknowledge index sub), some index)
                else
                  some (srv1, setObject od index obj2,
                    some (SdoResponse.download_acknowledge index sub), some index)
    else
      match find_object od index with
      | none =>
        some (srv1, od, some (SdoResponse.abort index sub AbortCode.NoSuchObject), none)
      | some obj =>
        match obj.sub_info sub with
        | Except.error code =>
          some (srv1, od, some (SdoResponse.abort index sub code), none)
        | Except.ok subinfo =>
          if s then
            if n > 4 then none
            else
              match srv1.validate_download_size (4 - n) subinfo with
              | some abort_resp =>
                some ({ srv1 with state := SdoState.Idle }, od, some abort_resp, none)
              | none =>
                some ({ srv1 with toggle_state := false, segment_counter := 0, state := SdoState.DownloadSegment },
                  od, some (SdoResponse.download_acknowledge index sub), none)
          else
            some ({ srv1 with toggle_state := false, segment_counter := 0, state := SdoState.DownloadSegment },
              od, some (SdoResponse.download_acknowledge index sub), none)
  | SdoRequest.DownloadSegment t n c dat =>
    if srv.state ≠ SdoState.DownloadSegment then
      some ({ srv with state := SdoState.Idle }, od,
        some (SdoResponse.abort srv.index srv.sub AbortCode.InvalidCommandSpecifier), none)
    else if t ≠ srv.toggle_state then
      some ({ srv with state := SdoState.Idle }, od,
        some (SdoResponse.abort srv.index srv.sub AbortCode.ToggleNotAlternated), none)
    else
      match find_object od srv.index with
      | none => none
      | some obj =>
        match obj.sub_info srv.sub with
        | Except.error _ => none
        | Except.ok subinfo =>
          if n > 7 then none
          else
            let offset := srv.segment_counter * 7
            let segment_size := 7 - n
            let write_len := offset + segment_size
            if write_len > subinfo.size then
              some ({ srv with state := SdoState.Idle }, od,
                some (SdoResponse.abort srv.index srv.sub
                  AbortCode.DataTypeMismatchLengthHigh), none)
            else
              match obj.write srv.sub offset (dat.take segment_size) with
              | Except.error _ => none
              | Except.ok obj2 =>
                let fin : ModelObj → Option SdoStep := fun objF =>
                  let srv2 := { srv with toggle_state := !srv.toggle_state, segment_counter := (srv.segment_counter + 1) % 65536 }
                  some (srv2, setObject od srv.index objF,
                    some (SdoResponse.download_segment_acknowledge (!srv2.toggle_state)),
                    if c then some srv.index else none)
                if c ∧ write_len < subinfo.size then
                  match obj2.write srv.sub write_len [0] with
                  | Except.error _ => none
                  | Except.ok obj3 => fin obj3
                else fin obj2
  | SdoRequest.ReqUploadSegment t =>
    if srv.state ≠ SdoState.UploadSegment then
      some ({ srv with state := SdoState.Idle }, od,
        some (SdoResponse.abort srv.index srv.sub AbortCode.InvalidCommandSpecifier), none)
    else if t ≠ srv.toggle_state then
      some ({ srv with state := SdoState.Idle }, od,
        some (SdoResponse.abort srv.index srv.sub AbortCode.ToggleNotAlternated), none)
    else
      match find_object od srv.index with
      | none => none
      | some obj =>
        match obj.current_size srv.sub with
        | Except.error _ => none
        | Except.ok current_size =>
          let read_offset := srv.segment_counter * 7
          if current_size < read_offset then none
          else
            let read_size := min (current_size - read_offset) 7
            match obj.read srv.sub read_offset read_size with
            | Except.error _ => none
            | Except.ok bytes =>
              let c := read_size + read_offset == current_size
              let srv2 := { srv with segment_counter := (srv.segment_counter + 1) % 65536, toggle_state := !srv.toggle_state, state := if c then SdoState.Idle else srv.state }
              some (srv2, od,
                some (SdoResponse.upload_segment (!srv2.toggle_state) c bytes), none)
  | SdoRequest.InitiateBlockDownload _ _ _ _ _ _ => none
  | SdoRequest.InitiateBlockUpload => none
  | SdoRequest.Abort _ _ _ =>
    some ({ srv with state := SdoState.Idle }, od, none, none)

/-! ### Theorems about the SDO server -/

/-- The logical size of a sub-object never exceeds its declared size. -/
lemma SubObj.currentSize_le_size (sd : SubObj) : sd.currentSize ≤ sd.info.size := by
  unfold SubObj.currentSize SubObj.strLen
  split
  · exact min_le_right _ _
  · exact le_refl _

/-- Drive a segmented upload: repeatedly send `ReqUploadSegment` carrying the
server's expected toggle, collecting the responses, while `fuel` exchanges
remain; succeeds exactly when the server reaches `Idle` within `fuel`
exchanges, with the collected responses. -/
def runUploadSegments (od : List ODEntry) : Nat → SdoServer → Option (List SdoResponse)
  | 0, srv => if srv.state = SdoState.Idle then some [] else none
  | fuel + 1, srv =>
    if srv.state = SdoState.Idle then some []
    else
      match srv.handle_request (SdoRequest.ReqUploadSegment srv.toggle_state) od with
      | some (srv2, _, some resp, _) =>
        (runUploadSegments od fuel srv2).map (fun rest => resp :: rest)
      | _ => none

/-- One good segment exchange of an in-progress segmented upload. -/
lemma handle_upload_segment_step (od : List ODEntry) (index sub : Nat)
    (o : ModelObj) (sd : SubObj) (S k : Nat) (tg : Bool)
    (hfind : find_object od index = some o)
    (hsub : o.findSub sub = some sd)
    (hlen : sd.dat.length = sd.info.size)
    (hS : sd.currentSize = S)
    (hk : k * 7 < S) (hkb : k < 65535) :
    SdoServer.handle_request ⟨tg, SdoState.UploadSegment, k, index, sub⟩
        (SdoRequest.ReqUploadSegment tg) od =
      some (⟨!tg, if S ≤ k * 7 + 7 then SdoState.Idle else SdoState.UploadSegment,
          k + 1, index, sub⟩, od,
        some (SdoResponse.upload_segment tg (decide (S ≤ k * 7 + 7))
          ((sd.dat.drop (k * 7)).take (min (S - k * 7) 7))), none) := by
  have hcs : ModelObj.current_size o sub = Except.ok S := by
    unfold ModelObj.current_size
    rw [hsub]
    simp [hS]
  have hSle : S ≤ sd.dat.length := by
    have := sd.currentSize_le_size
    omega
  have hread : ModelObj.read o sub (k * 7) (min (S - k * 7) 7) =
      Except.ok ((sd.dat.drop (k * 7)).take (min (S - k * 7) 7)) := by
    unfold ModelObj.read
    rw [hsub]
    have : k * 7 + min (S - k * 7) 7 ≤ sd.dat.length := by omega
    simp [this]
  have hcnt : (k + 1) % 65536 = k + 1 := by omega
  have hc : (min (S - k * 7) 7 + k * 7 == S) = decide (S ≤ k * 7 + 7) := by
    by_cases h : S ≤ k * 7 + 7
    · have : min (S - k * 7) 7 = S - k * 7 := by omega
      rw [this]
      simp [h]
      omega
    · have : min (S - k * 7) 7 = 7 := by omega
      rw [this]
      simp [h]
      omega
  simp only [SdoServer.handle_request]
  simp only [hfind, hcs, hread, hc, hcnt]
  by_cases h : S ≤ k * 7 + 7
  · simp [h]
    omega
  · simp [h]
    omega

/-- Parity of the toggle flips with each segment counter increment. -/
lemma toggle_parity_succ (k : Nat) :
    (!decide (k % 2 = 1)) = decide ((k + 1) % 2 = 1) := by
  by_cases h : k % 2 = 1
  · simp [h]
    omega
  · simp [h]
    omega

/-- An in-progress segmented upload with `fuel` segments left to serve
produces exactly the expected segment responses and ends `Idle`. -/
lemma runUploadSegments_spec (od : List ODEntry) (index sub : Nat)
    (o : ModelObj) (sd : SubObj) (S : Nat)
    (hfind : find_object od index = some o)
    (hsub : o.findSub sub = some sd)
    (hlen : sd.dat.length = sd.info.size)
    (hS : sd.currentSize = S) :
    ∀ fuel k, 1 ≤ fuel → (k + fuel - 1) * 7 < S → S ≤ (k + fuel) * 7 →
      k + fuel ≤ 65535 →
      runUploadSegments od fuel ⟨decide (k % 2 = 1), SdoState.UploadSegment, k, index, sub⟩ =
        some ((List.range fuel).map (fun j =>
          SdoResponse.upload_segment (decide ((k + j) % 2 = 1)) (decide (S ≤ (k + j) * 7 + 7))
            ((sd.dat.drop ((k + j) * 7)).take (min (S - (k + j) * 7) 7)))) := by
  intro fuel
  induction fuel with
  | zero => intro k h1; omega
  | succ f ih =>
    intro k hf hlt hge hb
    have hstep := handle_upload_segment_step od index sub o sd S k (decide (k % 2 = 1))
      hfind hsub hlen hS (by omega) (by omega)
    rw [runUploadSegments]
    rw [if_neg (by simp)]
    simp only
    rw [hstep]
    by_cases hc : S ≤ k * 7 + 7
    · have hf0 : f = 0 := by omega
      subst hf0
      rw [if_pos hc]
      simp [runUploadSegments, hc, List.range_succ]
    · have hf1 : 1 ≤ f := by omega
      rw [if_neg hc]
      simp only [toggle_parity_succ]
      rw [ih (k + 1) hf1 (by omega) (by omega) (by omega)]
      simp only [Option.map_some, List.range_succ_eq_map, List.map_cons, List.map_map]
      simp [hc, Function.comp]
      intro a ha
      rw [show k + (a + 1) = k + 1 + a from by omega]

/-- Helper: `current_size` through a found sub-object. -/
lemma current_size_of_findSub (o : ModelObj) (sub : Nat) (sd : SubObj) (S : Nat)
    (hsub : o.findSub sub = some sd) (hS : sd.currentSize = S) :
    ModelObj.current_size o sub = Except.ok S := by
  unfold ModelObj.current_size
  rw [hsub]
  simp [hS]

/-- Claim C1: for every SDO upload of a sub-object of current size `S`: when
`S ≤ 4` the initiate request is answered by a single expedited response
carrying the value, with the server Idle; when `S > 4` it is answered by a
size-indicating acknowledge, the server enters `UploadSegment` with
`toggle = false` and segment counter 0, and then serves exactly `⌈S/7⌉`
segment responses whose toggle bits alternate starting at 0, with the
completion bit exactly on the last one, ending `Idle` (encoded by
`runUploadSegments` succeeding at exactly that fuel). -/
theorem C1_sdo_upload (srv : SdoServer) (od : List ODEntry) (index sub : Nat)
    (o : ModelObj) (sd : SubObj) (S : Nat)
    (hfind : find_object od index = some o)
    (hsub : o.findSub sub = some sd)
    (hlen : sd.dat.length = sd.info.size)
    (hS : sd.currentSize = S)
    (hbound : S ≤ 458745) :
    (S ≤ 4 →
      srv.handle_request (SdoRequest.InitiateUpload index sub) od =
        some ({ srv with toggle_state := false, state := SdoState.Idle }, od,
          some (SdoResponse.expedited_upload index sub (sd.dat.take S)), none)) ∧
    (4 < S →
      srv.handle_request (SdoRequest.InitiateUpload index sub) od =
        some (⟨false, SdoState.UploadSegment, 0, index, sub⟩, od,
          some (SdoResponse.upload_acknowledge index sub S), none) ∧
      runUploadSegments od ((S + 6) / 7) ⟨false, SdoState.UploadSegment, 0, index, sub⟩ =
        some ((List.range ((S + 6) / 7)).map (fun k =>
          SdoResponse.upload_segment (decide (k % 2 = 1)) (decide (S ≤ k * 7 + 7))
            ((sd.dat.drop (k * 7)).take (min (S - k * 7) 7))))) := by
  have hcs := current_size_of_findSub o sub sd S hsub hS
  have hSle : S ≤ sd.dat.length := by
    have := sd.currentSize_le_size
    omega
  constructor
  · intro h4
    have hread : ModelObj.read o sub 0 S = Except.ok (sd.dat.take S) := by
      unfold ModelObj.read
      rw [hsub]
      simp [hSle]
    simp [SdoServer.handle_request, hfind, hcs, hread, h4]
  · intro h4
    constructor
    · simp [SdoServer.handle_request, hfind, hcs]
      omega
    · have hrun := runUploadSegments_spec od index sub o sd S hfind hsub hlen hS
        ((S + 6) / 7) 0 (by omega) (by omega) (by omega) (by omega)
      simpa using hrun

/-- Concrete sub-object for the C1 witness: a 16-byte Domain sub. -/
def wSd : SubObj := ⟨⟨16, DataType.Domain, AccessType.Rw⟩, List.range 16⟩

/-- Concrete object for the C1 witness. -/
def wObj : ModelObj := ⟨[(0, wSd)]⟩

/-- Concrete object dictionary for the C1 witness. -/
def wOd : List ODEntry := [(0x2003, wObj)]

/-- Witness for C1: a 16-byte upload is acknowledged with size 16 and served
in three segments with toggles 0,1,0 and the completion bit on the last. -/
theorem C1_sdo_upload_witness :
    SdoServer.new.handle_request (SdoRequest.InitiateUpload 0x2003 0) wOd =
      some (⟨false, SdoState.UploadSegment, 0, 0x2003, 0⟩, wOd,
        some (SdoResponse.upload_acknowledge 0x2003 0 16), none) ∧
    runUploadSegments wOd ((16 + 6) / 7) ⟨false, SdoState.UploadSegment, 0, 0x2003, 0⟩ =
      some ((List.range ((16 + 6) / 7)).map (fun k =>
        SdoResponse.upload_segment (decide (k % 2 = 1)) (decide (16 ≤ k * 7 + 7))
          ((wSd.dat.drop (k * 7)).take (min (16 - k * 7) 7)))) :=
  (C1_sdo_upload SdoServer.new wOd 0x2003 0 wObj wSd 16
    (by decide) (by decide) (by decide) (by decide) (by decide)).2 (by decide)

/-- Helper: `sub_info` through a found sub-object. -/
lemma sub_info_of_findSub (o : ModelObj) (sub : Nat) (sd : SubObj)
    (hsub : o.findSub sub = some sd) :
    ModelObj.sub_info o sub = Except.ok sd.info := by
  unfold ModelObj.sub_info
  rw [hsub]

/-- Helper: an in-range write succeeds and produces the overwritten object. -/
lemma ModelObj.write_ok (o : ModelObj) (sub : Nat) (sd : SubObj) (off : Nat)
    (bytes : List Nat) (hsub : o.findSub sub = some sd)
    (hr : off + bytes.length ≤ sd.dat.length) :
    o.write sub off bytes = Except.ok ⟨o.subs.map (fun p =>
      if p.1 == sub then (p.1, ⟨sd.info, listOverwrite sd.dat off bytes⟩) else p)⟩ := by
  unfold ModelObj.write
  rw [hsub]
  simp [hr]

/-- Helper: overwriting in range preserves the byte length. -/
lemma listOverwrite_length (dat : List Nat) (off : Nat) (bytes : List Nat)
    (h : off + bytes.length ≤ dat.length) :
    (listOverwrite dat off bytes).length = dat.length := by
  simp [listOverwrite]
  omega

/-- Helper: after replacing the entries keyed `sub`, `findSub` returns the
replacement (provided the key was present). -/
lemma findSub_after_replace (subs : List (Nat × SubObj)) (sub : Nat) (nv : SubObj)
    (sd : SubObj)
    (h : (subs.find? (fun p => p.1 == sub)).map (fun p => p.2) = some sd) :
    ModelObj.findSub ⟨subs.map (fun p => if p.1 == sub then (p.1, nv) else p)⟩ sub
      = some nv := by
  induction subs with
  | nil => simp at h
  | cons hd tl ih =>
    by_cases hk : hd.1 == sub
    · unfold ModelObj.findSub
      simp only [List.map_cons, hk, if_pos]
      rw [List.find?_cons_of_pos _ (by simpa using hk)]
      simp
    · unfold ModelObj.findSub at ih ⊢
      simp only [List.map_cons, hk, if_neg, Bool.not_eq_true]
      rw [List.find?_cons_of_neg _ (by simpa using hk)]
      apply ih
      rw [List.find?_cons_of_neg _ (by simpa using hk)] at h
      exact h

/-- Claim C2: for every SDO initiate download (expedited, or segmented with
indicated size) to a writable sub-object of declared size `size`, with
download size `dl = 4 - n`: a non-string sub aborts `DataTypeMismatchLengthLow`
when `dl < size` and `DataTypeMismatchLengthHigh` when `dl > size`; a string
sub aborts only when `dl > size` (with `DataTypeMismatchLengthHigh`), and
otherwise the download is acknowledged; on every such abort the object
dictionary — in particular the target sub-object's stored value — is
unchanged. -/
theorem C2_download_size_validation (srv : SdoServer) (od : List ODEntry)
    (index sub n : Nat) (e s : Bool) (dat : List Nat)
    (o : ModelObj) (sd : SubObj)
    (hfind : find_object od index = some o)
    (hsub : o.findSub sub = some sd)
    (hlen : sd.dat.length = sd.info.size)
    (hwrit : sd.info.access_type.is_writable = true)
    (hn : n ≤ 4)
    (hes : e = true ∨ s = true) :
    (sd.info.data_type.is_str = false → 4 - n < sd.info.size →
      srv.handle_request (SdoRequest.InitiateDownload n e s index sub dat) od =
        some ({ srv with index := index, sub := sub, state := SdoState.Idle }, od,
          some (SdoResponse.abort index sub AbortCode.DataTypeMismatchLengthLow), none)) ∧
    (sd.info.data_type.is_str = false → 4 - n > sd.info.size →
      srv.handle_request (SdoRequest.InitiateDownload n e s index sub dat) od =
        some ({ srv with index := index, sub := sub, state := SdoState.Idle }, od,
          some (SdoResponse.abort index sub AbortCode.DataTypeMismatchLengthHigh), none)) ∧
    (sd.info.data_type.is_str = true → 4 - n > sd.info.size →
      srv.handle_request (SdoRequest.InitiateDownload n e s index sub dat) od =
        some ({ srv with index := index, sub := sub, state := SdoState.Idle }, od,
          some (SdoResponse.abort index sub AbortCode.DataTypeMismatchLengthHigh), none)) ∧
    (4 - n ≤ sd.info.size → (sd.info.data_type.is_str = true ∨ 4 - n = sd.info.size) →
      ∃ r : SdoStep,
        srv.handle_request (SdoRequest.InitiateDownload n e s index sub dat) od = some r ∧
        r.2.2.1 = some (SdoResponse.download_acknowledge index sub)) := by
  have hsi := sub_info_of_findSub o sub sd hsub
  have hn4 : ¬ (n > 4) := by omega
  refine ⟨?_, ?_, ?_, ?_⟩
  · intro hstr hlt
    by_cases he : e = true
    · subst he
      simp [SdoServer.handle_request, hfind, hsi, hwrit, hn4,
        SdoServer.validate_download_size, hstr, hlt]
    · have hef : e = false := by revert he; cases e <;> simp
      have hst : s = true := by
        rcases hes with h | h
        · exact absurd h he
        · exact h
      subst hef
      subst hst
      simp [SdoServer.handle_request, hfind, hsi, hwrit, hn4,
        SdoServer.validate_download_size, hstr, hlt]
  · intro hstr hgt
    have hnlt : ¬ (4 - n < sd.info.size) := by omega
    by_cases he : e = true
    · subst he
      simp [SdoServer.handle_request, hfind, hsi, hwrit, hn4,
        SdoServer.validate_download_size, hstr, hgt, hnlt]
    · have hef : e = false := by revert he; cases e <;> simp
      have hst : s = true := by
        rcases hes with h | h
        · exact absurd h he
        · exact h
      subst hef
      subst hst
      simp [SdoServer.handle_request, hfind, hsi, hwrit, hn4,
        SdoServer.validate_download_size, hstr, hgt, hnlt]
  · intro hstr hgt
    by_cases he : e = true
    · subst he
      simp [SdoServer.handle_request, hfind, hsi, hwrit, hn4,
        SdoServer.validate_download_size, hstr, hgt]
    · have hef : e = false := by revert he; cases e <;> simp
      have hst : s = true := by
        rcases hes with h | h
        · exact absurd h he
        · exact h
      subst hef
      subst hst
      simp [SdoServer.handle_request, hfind, hsi, hwrit, hn4,
        SdoServer.validate_download_size, hstr, hgt]
  · intro hle hok
    have hval : ∀ srv1 : SdoServer,
        srv1.validate_download_size (4 - n) sd.info = none := by
      intro srv1
      unfold SdoServer.validate_download_size
      by_cases hstr : sd.info.data_type.is_str = true
      · simp [hstr, show ¬ (sd.info.size < 4 - n) from by omega]
      · have hstr2 : sd.info.data_type.is_str = false := by
          revert hstr; cases sd.info.data_type.is_str <;> simp
        rcases hok with h | h
        · exact absurd h hstr
        · simp [hstr2, h]
    by_cases he : e = true
    · subst he
      have hw1 := ModelObj.write_ok o sub sd 0 (dat.take (4 - n)) hsub
        (by simp [List.length_take]; omega)
      by_cases hz : 4 - n < sd.info.size
      · have hsub2 := findSub_after_replace o.subs sub
          ⟨sd.info, listOverwrite sd.dat 0 (dat.take (4 - n))⟩ sd hsub
        have hw2 := ModelObj.write_ok
          ⟨o.subs.map (fun p => if p.1 == sub then
            (p.1, ⟨sd.info, listOverwrite sd.dat 0 (dat.take (4 - n))⟩) else p)⟩ sub
          ⟨sd.info, listOverwrite sd.dat 0 (dat.take (4 - n))⟩ (4 - n) [0] hsub2
          (by
            rw [show ([0] : List Nat).length = 1 from rfl,
              listOverwrite_length sd.dat 0 (dat.take (4 - n))
                (by simp [List.length_take]; omega)]
            omega)
        simp only [beq_iff_eq] at hw1 hw2
        simp [SdoServer.handle_request, hfind, hsi, hwrit, hn4, hval, hw1, hw2, hz]
      · simp only [beq_iff_eq] at hw1
        simp [SdoServer.handle_request, hfind, hsi, hwrit, hn4, hval, hw1, hz]
    · have hef : e = false := by revert he; cases e <;> simp
      have hst : s = true := by
        rcases hes with h | h
        · exact absurd h he
        · exact h
      subst hef
      subst hst
      simp [SdoServer.handle_request, hfind, hsi, hwrit, hn4, hval]

/-- Witness for C2: a 2-byte expedited download to the 16-byte non-string sub
aborts `DataTypeMismatchLengthLow` and leaves the dictionary unchanged. -/
theorem C2_download_size_validation_witness :
    SdoServer.new.handle_request
        (SdoRequest.InitiateDownload 2 true true 0x2003 0 [9, 9, 0, 0]) wOd =
      some ({ SdoServer.new with index := 0x2003, sub := 0, state := SdoState.Idle }, wOd,
        some (SdoResponse.abort 0x2003 0 AbortCode.DataTypeMismatchLengthLow), none) :=
  (C2_download_size_validation SdoServer.new wOd 0x2003 0 2 true true [9, 9, 0, 0] wObj wSd
    (by decide) (by decide) (by decide) (by decide) (by decide) (Or.inl rfl)).1
    (by decide) (by decide)

/-- Helper: the model's `current_size` only fails with `NoSuchSubIndex`. -/
lemma ModelObj.current_size_error_iff (o : ModelObj) (sub : Nat) (code : AbortCode) :
    o.current_size sub = Except.error code ↔
      o.findSub sub = none ∧ code = AbortCode.NoSuchSubIndex := by
  unfold ModelObj.current_size
  cases h : o.findSub sub <;> simp [eq_comm]

/-- Helper: the model's `sub_info` only fails with `NoSuchSubIndex`. -/
lemma ModelObj.sub_info_error_iff (o : ModelObj) (sub : Nat) (code : AbortCode) :
    o.sub_info sub = Except.error code ↔
      o.findSub sub = none ∧ code = AbortCode.NoSuchSubIndex := by
  unfold ModelObj.sub_info
  cases h : o.findSub sub <;> simp [eq_comm]

/-- Helper: the model's `write` only fails with `NoSuchSubIndex` or
`UnsupportedAccess`. -/
lemma ModelObj.write_error_iff (o : ModelObj) (sub off : Nat) (bytes : List Nat)
    (code : AbortCode) :
    o.write sub off bytes = Except.error code ↔
      (o.findSub sub = none ∧ code = AbortCode.NoSuchSubIndex) ∨
      (∃ sd, o.findSub sub = some sd ∧ ¬ (off + bytes.length ≤ sd.dat.length) ∧
        code = AbortCode.UnsupportedAccess) := by
  unfold ModelObj.write
  cases h : o.findSub sub with
  | none => simp [eq_comm]
  | some sd =>
    by_cases hr : off + bytes.length ≤ sd.dat.length
    · simp [hr]
    · simp [hr, eq_comm]
      omega

/-- Claim C6: every abort response issued for a protocol violation (a toggle
mismatch or a request arriving in a state where it is an invalid command)
leaves the server in `Idle`; and a received `Abort` request resets the server
to `Idle` from any state and produces no response. -/
theorem C6_abort_resets_to_idle :
    (∀ (srv : SdoServer) (req : SdoRequest) (od : List ODEntry) (r : SdoStep)
        (i s2 : Nat) (code : AbortCode),
      srv.handle_request req od = some r →
      r.2.2.1 = some (SdoResponse.Abort i s2 code) →
      code = AbortCode.ToggleNotAlternated ∨ code = AbortCode.InvalidCommandSpecifier →
      r.1.state = SdoState.Idle) ∧
    (∀ (srv : SdoServer) (od : List ODEntry) (i s2 : Nat) (code : AbortCode),
      srv.handle_request (SdoRequest.Abort i s2 code) od =
        some ({ srv with state := SdoState.Idle }, od, none, none)) := by
  constructor
  · intro srv req od r i s2 code hstep hresp hcode
    cases req <;>
      simp only [SdoServer.handle_request] at hstep <;>
      (repeat' split at hstep) <;>
      (try (injection hstep with hstep; subst hstep)) <;>
      (try (rcases hcode with rfl | rfl)) <;>
      simp_all [SdoResponse.abort, SdoResponse.expedited_upload,
        SdoResponse.upload_acknowledge, SdoResponse.upload_segment,
        SdoResponse.download_acknowledge, SdoResponse.download_segment_acknowledge,
        ModelObj.current_size_error_iff, ModelObj.sub_info_error_iff,
        ModelObj.write_error_iff]
  · intro srv od i s2 code
    rfl

/-- Witness for C6: a `DownloadSegment` received while the server is mid
upload aborts `InvalidCommandSpecifier` with the server left `Idle`, and a
received `Abort` resets a mid-transfer server to `Idle` with no response. -/
theorem C6_abort_resets_to_idle_witness :
    (⟨true, SdoState.Idle, 3, 5, 6⟩ : SdoServer).state = SdoState.Idle ∧
    SdoServer.handle_request ⟨true, SdoState.UploadSegment, 3, 5, 6⟩
        (SdoRequest.Abort 1 2 AbortCode.CrcError) [] =
      some (⟨true, SdoState.Idle, 3, 5, 6⟩, [], none, none) :=
  ⟨C6_abort_resets_to_idle.1 ⟨true, SdoState.UploadSegment, 3, 5, 6⟩
      (SdoRequest.DownloadSegment false 0 false []) []
      (⟨true, SdoState.Idle, 3, 5, 6⟩, [],
        some (SdoResponse.Abort 5 6 AbortCode.InvalidCommandSpecifier), none)
      5 6 AbortCode.InvalidCommandSpecifier (by decide) (by decide) (Or.inr rfl),
    C6_abort_resets_to_idle.2 ⟨true, SdoState.UploadSegment, 3, 5, 6⟩ [] 1 2 AbortCode.CrcError⟩

/-! ### CAN identifiers and messages

The `zencan-common` `messages` module is not present in the source tree. -/

/-- Modelled from the spec: `CanId` — a tagged choice of 11-bit standard or
29-bit extended identifier. -/
inductive CanId where
  | Std (v : Nat)
  | Ext (v : Nat)
deriving DecidableEq, Repr

/-- Modelled from the spec: `CanId::raw`. -/
def CanId.raw : CanId → Nat
  | CanId.Std v => v
  | CanId.Ext v => v

/-- Modelled from the spec: a classical CAN frame (the `rtr` flag plays no
role in the embedded paths). -/
structure CanMessage where
  id : CanId
  dat : List Nat
deriving DecidableEq, Repr

/-! ### Priority queue (`zencan-node/src/priority_queue.rs`)

A slot of the fixed array is `none` when its empty bit (bit 31 of the
priority word) is set, and `some (prio, value)` with `prio < 2^31`
otherwise. -/

/-- Embeds `Prio::new`: the priority is masked with `0x7FFFFFFF`. -/
def prioNew {α : Type} (prio : Nat) (v : α) : Option (Nat × α) :=
  some (prio % 2 ^ 31, v)

/-- Embeds `PriorityQueue::push`: store into the first empty slot, or return
the item when the array is full. -/
def pqPush {α : Type} (q : List (Option (Nat × α))) (prio : Nat) (item : α) :
    List (Option (Nat × α)) × Option α :=
  match q with
  | [] => ([], some item)
  | none :: rest => (prioNew prio item :: rest, none)
  | some s :: rest =>
    let (r, e) := pqPush rest prio item
    (some s :: r, e)

/-- Embeds the selection loop of `PriorityQueue::pop`: traverse the slots
keeping the index of the smallest priority seen so far (strict improvement
over a running minimum that starts at `u32::MAX`). -/
def pqSelectAux {α : Type} : List (Option (Nat × α)) → Nat → Nat → Option Nat → Option Nat
  | [], _, _, sel => sel
  | slot :: rest, i, minPrio, sel =>
    match slot with
    | some (p, _) =>
      if p < minPrio then pqSelectAux rest (i + 1) p (some i)
      else pqSelectAux rest (i + 1) minPrio sel
    | none => pqSelectAux rest (i + 1) minPrio sel

/-- Embeds `PriorityQueue::pop`: take the selected slot, or return `None`
when no slot is occupied. -/
def pqPop {α : Type} (q : List (Option (Nat × α))) :
    Option α × List (Option (Nat × α)) :=
  match pqSelectAux q 0 4294967295 none with
  | none => (none, q)
  | some i =>
    match q.get? i with
    | some (some (_, v)) => (some v, q.set i none)
    | _ => (none, q)

/-- Full characterisation of the selection loop: it either keeps the running
selection (when nothing beats the running minimum) or returns the position of
an entry whose priority beats the running minimum and is a lower bound of
every occupied slot. -/
lemma pqSelectAux_spec {α : Type} (q : List (Option (Nat × α))) :
    ∀ i m sel,
      (pqSelectAux q i m sel = sel ∧
        (∀ j p v, q.get? j = some (some (p, v)) → m ≤ p)) ∨
      (∃ j p v, pqSelectAux q i m sel = some (i + j) ∧
        q.get? j = some (some (p, v)) ∧ p < m ∧
        (∀ k p2 w, q.get? k = some (some (p2, w)) → p ≤ p2)) := by
  induction q with
  | nil =>
    intro i m sel
    left
    constructor
    · rfl
    · intro j p v hj
      simp at hj
  | cons slot rest ih =>
    intro i m sel
    match slot with
    | none =>
      rcases ih (i + 1) m sel with ⟨heq, hbound⟩ | ⟨j, p, v, heq, hj, hlt, hmin⟩
      · left
        refine ⟨heq, ?_⟩
        intro j p v hj
        match j, hj with
        | j + 1, hj => exact hbound j p v hj
      · right
        refine ⟨j + 1, p, v, ?_, hj, hlt, ?_⟩
        · rw [show i + (j + 1) = i + 1 + j from by omega]
          exact heq
        · intro k p2 w hk
          match k, hk with
          | k + 1, hk => exact hmin k p2 w hk
    | some (p0, v0) =>
      by_cases hp : p0 < m
      · rcases ih (i + 1) p0 (some i) with ⟨heq, hbound⟩ | ⟨j, p, v, heq, hj, hlt, hmin⟩
        · right
          refine ⟨0, p0, v0, ?_, rfl, hp, ?_⟩
          · simpa [pqSelectAux, hp] using heq
          · intro k p2 w hk
            match k, hk with
            | 0, hk => simp at hk; omega
            | k + 1, hk => exact hbound k p2 w hk
        · right
          refine ⟨j + 1, p, v, ?_, hj, by omega, ?_⟩
          · rw [show i + (j + 1) = i + 1 + j from by omega]
            simpa [pqSelectAux, hp] using heq
          · intro k p2 w hk
            match k, hk with
            | 0, hk =>
              simp at hk
              omega
            | k + 1, hk => exact hmin k p2 w hk
      · rcases ih (i + 1) m sel with ⟨heq, hbound⟩ | ⟨j, p, v, heq, hj, hlt, hmin⟩
        · left
          refine ⟨by simpa [pqSelectAux, hp] using heq, ?_⟩
          intro j p2 v hj
          match j, hj with
          | 0, hj =>
            simp at hj
            omega
          | j + 1, hj => exact hbound j p2 v hj
        · right
          refine ⟨j + 1, p, v, ?_, hj, hlt, ?_⟩
          · rw [show i + (j + 1) = i + 1 + j from by omega]
            simpa [pqSelectAux, hp] using heq
          · intro k p2 w hk
            match k, hk with
            | 0, hk =>
              simp at hk
              omega
            | k + 1, hk => exact hmin k p2 w hk

/-! ### SDO comms (`zencan-node/src/sdo_server/sdo_comms.rs`) -/

/-- Embeds `ReceiverState`. -/
inductive ReceiverState where
  | Normal
  | BlockReceive
  | BlockReceiveCompleted (ackseq : Nat) (last_segment : Nat) (complete : Bool)
  | BlockSend (block_size : Nat) (current_segment : Nat) (send_complete : Bool)
  | BlockSendCompleted
  | BlockSendAborted
deriving DecidableEq, Repr

/-- Modelled from the spec: the numeric values of the SDO abort codes (the
standard CiA 301 codes for the taxonomy the spec lists). -/
def AbortCode.toU32 : AbortCode → Nat
  | AbortCode.NoSuchObject => 0x06020000
  | AbortCode.NoSuchSubIndex => 0x06090011
  | AbortCode.ReadOnly => 0x06010002
  | AbortCode.UnsupportedAccess => 0x06010000
  | AbortCode.DataTypeMismatch => 0x06070010
  | AbortCode.DataTypeMismatchLengthHigh => 0x06070012
  | AbortCode.DataTypeMismatchLengthLow => 0x06070013
  | AbortCode.ToggleNotAlternated => 0x05030000
  | AbortCode.InvalidCommandSpecifier => 0x05040001
  | AbortCode.CrcError => 0x05040004
  | AbortCode.IncompatibleParameter => 0x06040043
  | AbortCode.ResourceNotAvailable => 0x060A0023

/-- Modelled from the spec: `SdoResponse::to_bytes`, the CiA 301 command-byte
layout of §6 (`e`, `s`, `n`, `t`, `c` flags), little-endian index. -/
def SdoResponse.to_bytes : SdoResponse → List Nat
  | SdoResponse.ConfirmUpload n e s index sub dat =>
    [0x40 + n * 4 + (if e then 2 else 0) + (if s then 1 else 0),
      index % 256, index / 256 % 256, sub] ++ padTo 4 (dat.take 4)
  | SdoResponse.UploadSegment t n c dat =>
    [(if t then 0x10 else 0) + n * 2 + (if c then 1 else 0)] ++ padTo 7 (dat.take 7)
  | SdoResponse.ConfirmDownload index sub =>
    [0x60, index % 256, index / 256 % 256, sub, 0, 0, 0, 0]
  | SdoResponse.ConfirmDownloadSegment t =>
    [0x20 + (if t then 0x10 else 0), 0, 0, 0, 0, 0, 0, 0]
  | SdoResponse.Abort index sub code =>
    [0x80, index % 256, index / 256 % 256, sub] ++ leBytes4 code.toU32

/-- Modelled from the spec: the wire form of a block segment —
`{c, seqnum (1..127), data[7]}` with the completion flag in bit 7 of the
first byte (§4.2). -/
def BlockSegment.to_bytes (c : Bool) (seqnum : Nat) (dat : List Nat) : List Nat :=
  [(if c then 0x80 else 0) + seqnum] ++ padTo 7 (dat.take 7)

/-- Embeds `struct SdoComms` (the atomic cells become plain fields; the
buffer is the byte list it owns). -/
structure SdoComms where
  request : Option SdoRequest
  response : Option SdoResponse
  state : ReceiverState
  buffer : List Nat
  timer : Nat
  last_seqnum : Nat
  blksize : Nat
deriving DecidableEq, Repr

/-- Embeds `SdoComms::next_transmit_message`: a queued response is always
sent first; otherwise, in `BlockSend`, the next block segment is generated
from the buffer and the state advanced (`BlockSendCompleted` after the last
segment of the sub-block); otherwise nothing.  `none` embeds the panics of
the slice arithmetic on a malformed state. -/
def SdoComms.next_transmit_message (sc : SdoComms) :
    Option (Option (List Nat) × SdoComms) :=
  match sc.response with
  | some resp => some (some resp.to_bytes, { sc with response := none })
  | none =>
    match sc.state with
    | ReceiverState.BlockSend block_size current_segment send_complete =>
      let total_segments := (block_size + 6) / 7
      let read_idx := current_segment * 7
      if block_size = 0 then none
      else if block_size < read_idx then none
      else
        let bytes_remaining := block_size - read_idx
        let segment_size := min bytes_remaining 7
        if sc.buffer.length < read_idx + segment_size then none
        else
          let last_segment_in_subblock := current_segment == total_segments % 256 - 1
          let c := send_complete && last_segment_in_subblock
          let dat := (sc.buffer.drop read_idx).take segment_size
          let st2 := if last_segment_in_subblock then ReceiverState.BlockSendCompleted
            else ReceiverState.BlockSend block_size ((current_segment + 1) % 256) send_complete
          some (some (BlockSegment.to_bytes c (current_segment + 1) dat),
            { sc with state := st2 })
    | _ => some (none, sc)

/-! ### Mailbox (`zencan-node/src/node_mbox.rs`) -/

/-- Modelled from the spec: the PDO slot fields the mailbox consults — the
valid bit, the slot's COB-ID, and the single-slot frame buffer. -/
structure PdoSlot where
  valid : Bool
  cob_id : CanId
  buffered_value : Option (List Nat)
deriving DecidableEq, Repr

/-- Embeds `struct NodeMbox` (atomic cells as plain fields; the transmit
queue is the bounded priority-queue array). -/
structure NodeMbox where
  rx_pdos : List PdoSlot
  tx_pdos : List PdoSlot
  sdo_rx_cob_id : Option CanId
  sdo_tx_cob_id : Option CanId
  sdo_comms : SdoComms
  nmt_mbox : Option CanMessage
  lss_request : Option (List Nat)
  sync_flag : Bool
  tx_queue : List (Option (Nat × CanMessage))
deriving DecidableEq, Repr

/-- Embeds the TPDO scan of `next_transmit_message`: take the buffered frame
of the first slot holding one, in declared order. -/
def scanTpdo : List PdoSlot → Option (CanId × List Nat × List PdoSlot)
  | [] => none
  | p :: rest =>
    match p.buffered_value with
    | some buf => some (p.cob_id, buf, { p with buffered_value := none } :: rest)
    | none => (scanTpdo rest).map (fun r => (r.1, r.2.1, p :: r.2.2))

/-- Embeds `NodeMbox::next_transmit_message`: a buffered TPDO frame first
(in slot order), then the lowest-priority entry of the transmit queue, then
the SDO server's next transmit message (dropped when no SDO TX COB-ID is
configured), else nothing.  The outer `none` embeds a panic propagated from
the SDO block-send arithmetic. -/
def NodeMbox.next_transmit_message (mb : NodeMbox) :
    Option (Option CanMessage × NodeMbox) :=
  match scanTpdo mb.tx_pdos with
  | some r => some (some ⟨r.1, r.2.1⟩, { mb with tx_pdos := r.2.2 })
  | none =>
    match pqPop mb.tx_queue with
    | (some msg, q2) => some (some msg, { mb with tx_queue := q2 })
    | (none, _) =>
      match mb.sdo_comms.next_transmit_message with
      | none => none
      | some (some bytes, sc2) =>
        match mb.sdo_tx_cob_id with
        | some id => some (some ⟨id, bytes⟩, { mb with sdo_comms := sc2 })
        | none => some (none, { mb with sdo_comms := sc2 })
      | some (none, sc2) => some (none, { mb with sdo_comms := sc2 })

/-- Helper: the TPDO scan returns the first buffered slot's frame. -/
lemma scanTpdo_first : ∀ (l : List PdoSlot) (i : Nat) (p : PdoSlot) (buf : List Nat),
    l.get? i = some p → p.buffered_value = some buf →
    (∀ j q, j < i → l.get? j = some q → q.buffered_value = none) →
    ∃ rest, scanTpdo l = some (p.cob_id, buf, rest) := by
  intro l
  induction l with
  | nil =>
    intro i p buf hi
    simp at hi
  | cons hd tl ih =>
    intro i p buf hi hbuf hprev
    match i, hi with
    | 0, hi =>
      simp at hi
      subst hi
      exact ⟨{ hd with buffered_value := none } :: tl, by simp [scanTpdo, hbuf]⟩
    | i + 1, hi =>
      have hhd : hd.buffered_value = none := hprev 0 hd (by omega) rfl
      obtain ⟨rest, hrest⟩ := ih i p buf hi hbuf
        (fun j q hj hq => hprev (j + 1) q (by omega) hq)
      exact ⟨hd :: rest, by simp [scanTpdo, hhd, hrest]⟩

/-- Helper: the TPDO scan finds nothing when no slot holds a frame. -/
lemma scanTpdo_none : ∀ (l : List PdoSlot),
    (∀ p ∈ l, p.buffered_value = none) → scanTpdo l = none := by
  intro l
  induction l with
  | nil => intro _; rfl
  | cons hd tl ih =>
    intro h
    have hhd := h hd (by simp)
    simp [scanTpdo, hhd, ih (fun p hp => h p (by simp [hp]))]

/-- Helper: `pop` on an all-empty queue returns `None` and leaves it as is. -/
lemma pqPop_empty {α : Type} (q : List (Option (Nat × α)))
    (h : ∀ e ∈ q, e = none) : pqPop q = (none, q) := by
  rcases pqSelectAux_spec q 0 4294967295 none with ⟨heq, _⟩ | ⟨j, p, v, _, hj, _, _⟩
  · simp [pqPop, heq]
  · have := h _ (List.get?_mem hj)
    simp at this

/-- Helper: `pop` on a queue with an occupied slot returns an entry of
minimal priority and empties its slot. -/
lemma pqPop_occupied {α : Type} (q : List (Option (Nat × α))) (j : Nat)
    (pv : Nat × α)
    (hq : ∀ e ∈ q, ∀ pv2 : Nat × α, e = some pv2 → pv2.1 < 2 ^ 31)
    (hj : q.get? j = some (some pv)) :
    ∃ p2 v q2, pqPop q = (some v, q2) ∧
      (∃ k, q.get? k = some (some (p2, v)) ∧ q2 = q.set k none) ∧
      (∀ k2 pv2, q.get? k2 = some (some pv2) → p2 ≤ pv2.1) := by
  rcases pqSelectAux_spec q 0 4294967295 none with ⟨_, hbound⟩ | ⟨k, p, v, heq, hk, _, hmin⟩
  · have h1 := hbound j pv.1 pv.2 (by simpa using hj)
    have h2 := hq _ (List.get?_mem hj) pv rfl
    omega
  · refine ⟨p, v, q.set k none, ?_, ⟨k, hk, rfl⟩, ?_⟩
    · rw [pqPop]
      rw [show (0 : Nat) + k = k from by omega] at heq
      rw [heq]
      have hk2 : q[k]? = some (some (p, v)) := by simpa using hk
      simp [hk2]
    · intro k2 pv2 hk2
      exact hmin k2 pv2.1 pv2.2 (by simpa using hk2)

/-- Claim C8: `next_transmit_message` selects, in order: the first TPDO slot
holding a buffered frame (slot order), else the transmit-queue entry with the
lowest CAN-ID — with `PriorityQueue::pop` returning an occupied entry of
minimal priority value, or `None` when the queue is empty — else the SDO
server's next transmit message (given a configured SDO TX COB-ID), and
nothing when none of these is pending. -/
theorem C8_transmit_priority :
    (∀ (mb : NodeMbox) (i : Nat) (p : PdoSlot) (buf : List Nat),
      mb.tx_pdos.get? i = some p → p.buffered_value = some buf →
      (∀ j q, j < i → mb.tx_pdos.get? j = some q → q.buffered_value = none) →
      ∃ mb2, mb.next_transmit_message = some (some ⟨p.cob_id, buf⟩, mb2)) ∧
    (∀ (q : List (Option (Nat × CanMessage))),
      (∀ e ∈ q, ∀ pv : Nat × CanMessage, e = some pv → pv.1 < 2 ^ 31) →
      ((∀ e ∈ q, e = none) → pqPop q = (none, q)) ∧
      (∀ j pv, q.get? j = some (some pv) →
        ∃ p2 v q2, pqPop q = (some v, q2) ∧
          (∃ k, q.get? k = some (some (p2, v)) ∧ q2 = q.set k none) ∧
          (∀ k2 pv2, q.get? k2 = some (some pv2) → p2 ≤ pv2.1))) ∧
    (∀ (mb : NodeMbox) (msg : CanMessage) (q2 : List (Option (Nat × CanMessage))),
      (∀ p ∈ mb.tx_pdos, p.buffered_value = none) →
      pqPop mb.tx_queue = (some msg, q2) →
      mb.next_transmit_message = some (some msg, { mb with tx_queue := q2 })) ∧
    (∀ (mb : NodeMbox),
      (∀ p ∈ mb.tx_pdos, p.buffered_value = none) →
      (∀ e ∈ mb.tx_queue, e = none) →
      (∀ bytes sc2 id, mb.sdo_comms.next_transmit_message = some (some bytes, sc2) →
        mb.sdo_tx_cob_id = some id →
        mb.next_transmit_message = some (some ⟨id, bytes⟩, { mb with sdo_comms := sc2 })) ∧
      (∀ sc2, mb.sdo_comms.next_transmit_message = some (none, sc2) →
        mb.next_transmit_message = some (none, { mb with sdo_comms := sc2 }))) := by
  refine ⟨?_, ?_, ?_, ?_⟩
  · intro mb i p buf hi hbuf hprev
    obtain ⟨rest, hscan⟩ := scanTpdo_first mb.tx_pdos i p buf hi hbuf hprev
    exact ⟨{ mb with tx_pdos := rest }, by simp [NodeMbox.next_transmit_message, hscan]⟩
  · intro q hq
    exact ⟨pqPop_empty q, fun j pv hj => pqPop_occupied q j pv hq hj⟩
  · intro mb msg q2 htpdo hpop
    simp [NodeMbox.next_transmit_message, scanTpdo_none mb.tx_pdos htpdo, hpop]
  · intro mb htpdo hqe
    have hscan := scanTpdo_none mb.tx_pdos htpdo
    have hpop := pqPop_empty mb.tx_queue hqe
    constructor
    · intro bytes sc2 id hsdo hid
      simp [NodeMbox.next_transmit_message, hscan, hpop, hsdo, hid]
    · intro sc2 hsdo
      simp [NodeMbox.next_transmit_message, hscan, hpop, hsdo]

/-- Concrete mailbox for the C8 witness: one buffered TPDO, a queued frame,
and an idle SDO channel. -/
def wMbox : NodeMbox :=
  { rx_pdos := []
    tx_pdos := [⟨true, CanId.Std 0x181, none⟩, ⟨true, CanId.Std 0x281, some [1, 2, 3, 4, 5, 6, 7, 8]⟩]
    sdo_rx_cob_id := some (CanId.Std 0x601)
    sdo_tx_cob_id := some (CanId.Std 0x581)
    sdo_comms := ⟨none, none, ReceiverState.Normal, [], 0, 0, 0⟩
    nmt_mbox := none
    lss_request := none
    sync_flag := false
    tx_queue := [some (0x701, ⟨CanId.Std 0x701, [5]⟩), none]
    }

/-- Witness for C8: the buffered frame of the second TPDO slot is selected
ahead of the queued heartbeat. -/
theorem C8_transmit_priority_witness :
    ∃ mb2, wMbox.next_transmit_message =
      some (some ⟨CanId.Std 0x281, [1, 2, 3, 4, 5, 6, 7, 8]⟩, mb2) :=
  C8_transmit_priority.1 wMbox 1 ⟨true, CanId.Std 0x281, some [1, 2, 3, 4, 5, 6, 7, 8]⟩
    [1, 2, 3, 4, 5, 6, 7, 8] (by decide) (by decide)
    (by intro j q hj hq; interval_cases j <;> simp_all [wMbox] <;> simp [← hq])

/-! ### Receive-side dispatch (`zencan-node/src/node_mbox.rs`) -/

/-- Modelled from the spec: the inverse of `AbortCode.toU32`. -/
def abortCodeOfU32 (v : Nat) : Option AbortCode :=
  if v = 0x06020000 then some AbortCode.NoSuchObject
  else if v = 0x06090011 then some AbortCode.NoSuchSubIndex
  else if v = 0x06010002 then some AbortCode.ReadOnly
  else if v = 0x06010000 then some AbortCode.UnsupportedAccess
  else if v = 0x06070010 then some AbortCode.DataTypeMismatch
  else if v = 0x06070012 then some AbortCode.DataTypeMismatchLengthHigh
  else if v = 0x06070013 then some AbortCode.DataTypeMismatchLengthLow
  else if v = 0x05030000 then some AbortCode.ToggleNotAlternated
  else if v = 0x05040001 then some AbortCode.InvalidCommandSpecifier
  else if v = 0x05040004 then some AbortCode.CrcError
  else if v = 0x06040043 then some AbortCode.IncompatibleParameter
  else if v = 0x060A0023 then some AbortCode.ResourceNotAvailable
  else none

/-- Modelled from the spec: `SdoRequest::try_from` for an 8-byte frame,
decoding the client command specifier of the first byte per the CiA 301
layout of §6 (`e`, `s`, `n`, `t`, `c` flags, little-endian index). -/
def parseSdoRequest (d : List Nat) : Option SdoRequest :=
  match d with
  | [b0, b1, b2, b3, b4, b5, b6, b7] =>
    let ccs := b0 / 32
    let index := b1 + b2 * 256
    if b0 = 0x80 then
      match abortCodeOfU32 (fromLeBytes4 [b4, b5, b6, b7]) with
      | some code => some (SdoRequest.Abort index b3 code)
      | none => none
    else if ccs = 0 then
      some (SdoRequest.DownloadSegment (b0 / 16 % 2 == 1) (b0 / 2 % 8) (b0 % 2 == 1)
        [b1, b2, b3, b4, b5, b6, b7])
    else if ccs = 1 then
      some (SdoRequest.InitiateDownload (b0 / 4 % 4) (b0 / 2 % 2 == 1) (b0 % 2 == 1)
        index b3 [b4, b5, b6, b7])
    else if ccs = 2 then some (SdoRequest.InitiateUpload index b3)
    else if ccs = 3 then some (SdoRequest.ReqUploadSegment (b0 / 16 % 2 == 1))
    else if ccs = 5 then some SdoRequest.InitiateBlockUpload
    else if ccs = 6 then
      some (SdoRequest.InitiateBlockDownload (b0 / 4 % 2 == 1) (b0 / 2 % 2 == 1) (b0 % 2)
        index b3 (fromLeBytes4 [b4, b5, b6, b7]))
    else none
  | _ => none

/-- Embeds the block-segment handling of `SdoComms::handle_req` in
`BlockReceive`: write the segment at `(seqnum-1)*7`, advance the in-order
counter, and complete the sub-block at `seqnum == blksize` or `c`. -/
def SdoComms.handleBlockSegment (sc : SdoComms) (b0 : Nat) (dat : List Nat) :
    Bool × SdoComms :=
  let c := b0 / 128 % 2 == 1
  let seqnum := b0 % 128
  if seqnum = 0 then (false, sc)
  else
    let pos := (seqnum - 1) * 7
    let buffer2 := if pos + 7 ≤ sc.buffer.length then listOverwrite sc.buffer pos dat
      else sc.buffer
    let last2 := if seqnum = sc.last_seqnum + 1 then (sc.last_seqnum + 1) % 256
      else sc.last_seqnum
    if seqnum = sc.blksize ∨ c then
      (true, { sc with buffer := buffer2, last_seqnum := last2, timer := 0, state := ReceiverState.BlockReceiveCompleted last2 seqnum c })
    else
      (false, { sc with buffer := buffer2, last_seqnum := last2, timer := 0 })

/-- Embeds `SdoComms::handle_req`: frames that are not 8 bytes are ignored;
otherwise dispatch on the receiver state — parse and store a request in
`Normal`, interpret block segments (or a leading-0x80 abort) in
`BlockReceive`, flag an abort in `BlockSend`, and store any parsed request in
the remaining states.  Returns whether a `process` call is required. -/
def SdoComms.handle_req (sc : SdoComms) (msg_data : List Nat) : Bool × SdoComms :=
  if msg_data.length ≠ 8 then (false, sc)
  else
    let b0 := msg_data.headD 0
    match sc.state with
    | ReceiverState.Normal =>
      match parseSdoRequest msg_data with
      | some req => (true, { sc with request := some req, timer := 0 })
      | none => (false, sc)
    | ReceiverState.BlockReceive =>
      if b0 = 0x80 then
        match parseSdoRequest msg_data with
        | some req =>
          (true, { sc with request := some req, state := ReceiverState.Normal })
        | none => sc.handleBlockSegment b0 (msg_data.drop 1)
      else sc.handleBlockSegment b0 (msg_data.drop 1)
    | ReceiverState.BlockReceiveCompleted _ _ _ => (true, sc)
    | ReceiverState.BlockSend _ _ _ =>
      if b0 = 0x80 then (true, { sc with state := ReceiverState.BlockSendAborted })
      else (false, sc)
    | ReceiverState.BlockSendCompleted =>
      match parseSdoRequest msg_data with
      | some req => (true, { sc with request := some req, timer := 0 })
      | none => (true, sc)
    | ReceiverState.BlockSendAborted =>
      match parseSdoRequest msg_data with
      | some req => (true, { sc with request := some req, timer := 0 })
      | none => (true, sc)

/-- Modelled from the spec: `LssRequest::try_from` — LSS requests are 8-byte
frames; the parsed request is kept as its raw payload. -/
def lssParse (d : List Nat) : Option (List Nat) :=
  if d.length = 8 then some d else none

/-- The NMT command COB-ID (0x000). -/
def NMT_CMD_ID : CanId := CanId.Std 0x000

/-- The SYNC COB-ID (0x080). -/
def SYNC_ID : CanId := CanId.Std 0x080

/-- The LSS request COB-ID (0x7E5). -/
def LSS_REQ_ID : CanId := CanId.Std 0x7E5

/-- Embeds the RPDO scan of `store_message`: the first valid slot whose
COB-ID matches receives the (zero-padded) payload.  Frames longer than 8
bytes would panic in the source copy; the embedding is used under the CAN
invariant of at most 8 data bytes. -/
def storeRpdo : List PdoSlot → CanMessage → Option (List PdoSlot)
  | [], _ => none
  | p :: rest, msg =>
    if p.valid ∧ msg.id = p.cob_id then
      some ({ p with buffered_value := some (padTo 8 msg.dat) } :: rest)
    else (storeRpdo rest msg).map (fun r => p :: r)

/-- Embeds `NodeMbox::store_message`.  The second component models the
`Result`: `none` for `Ok(())`, `some msg` for `Err(msg)` (frame returned to
the caller).  Note the SDO branch calls `handle_req` and then falls through
to `Err(msg)`. -/
def NodeMbox.store_message (mb : NodeMbox) (msg : CanMessage) :
    NodeMbox × Option CanMessage :=
  if msg.id = NMT_CMD_ID then ({ mb with nmt_mbox := some msg }, none)
  else if msg.id = SYNC_ID then ({ mb with sync_flag := true }, none)
  else if msg.id = LSS_REQ_ID then
    match lssParse msg.dat with
    | some req => ({ mb with lss_request := some req }, none)
    | none => (mb, some msg)
  else
    match storeRpdo mb.rx_pdos msg with
    | some rx2 => ({ mb with rx_pdos := rx2 }, none)
    | none =>
      match mb.sdo_rx_cob_id with
      | some cob =>
        if msg.id = cob then
          ({ mb with sdo_comms := (mb.sdo_comms.handle_req msg.dat).2 }, some msg)
        else (mb, some msg)
      | none => (mb, some msg)

/-- Helper: the RPDO scan succeeds when some valid slot's COB-ID matches. -/
lemma storeRpdo_match (l : List PdoSlot) (msg : CanMessage)
    (h : ∃ p ∈ l, p.valid = true ∧ msg.id = p.cob_id) :
    ∃ rx2, storeRpdo l msg = some rx2 := by
  induction l with
  | nil => simp at h
  | cons hd tl ih =>
    obtain ⟨p, hp, hv, hc⟩ := h
    rcases List.mem_cons.mp hp with hp2 | hp2
    · subst hp2
      exact ⟨{ p with buffered_value := some (padTo 8 msg.dat) } :: tl,
        by simp [storeRpdo, hv, hc]⟩
    · by_cases hhd : hd.valid ∧ msg.id = hd.cob_id
      · exact ⟨{ hd with buffered_value := some (padTo 8 msg.dat) } :: tl,
          by simp [storeRpdo, hhd.1, hhd.2]⟩
      · obtain ⟨rx2, hrx2⟩ := ih ⟨p, hp2, hv, hc⟩
        exact ⟨hd :: rx2, by simp [storeRpdo, hhd, hrx2]⟩

/-- Counterexample for C5: a well-formed SDO request frame arriving on the
configured SDO RX COB-ID is dispatched to the SDO receiver slot (the parsed
request is stored), yet `store_message` still returns the frame to the
caller (`Err`) instead of consuming it (`Ok`). -/
theorem C5_sdo_frame_returned_counterexample :
    wMbox.store_message ⟨CanId.Std 0x601, [0x40, 0x00, 0x20, 1, 0, 0, 0, 0]⟩ =
      ({ wMbox with sdo_comms :=
          ⟨some (SdoRequest.InitiateUpload 0x2000 1), none, ReceiverState.Normal, [], 0, 0, 0⟩ },
        some ⟨CanId.Std 0x601, [0x40, 0x00, 0x20, 1, 0, 0, 0, 0]⟩) := by
  decide

/-- Claim C5 as amended: NMT, SYNC and first-matching-valid-RPDO frames are
consumed (`Ok`); an LSS frame is consumed exactly when it parses as an LSS
request (8 bytes); a frame matching the configured SDO RX COB-ID is passed
to the SDO receiver but still returned to the caller (`Err`); every other
frame is returned unchanged. -/
theorem C5_store_message_amended (mb : NodeMbox) (msg : CanMessage) :
    (msg.id = NMT_CMD_ID →
      mb.store_message msg = ({ mb with nmt_mbox := some msg }, none)) ∧
    (msg.id = SYNC_ID →
      mb.store_message msg = ({ mb with sync_flag := true }, none)) ∧
    (msg.id = LSS_REQ_ID →
      (msg.dat.length = 8 →
        mb.store_message msg = ({ mb with lss_request := some msg.dat }, none)) ∧
      (msg.dat.length ≠ 8 → mb.store_message msg = (mb, some msg))) ∧
    (msg.id ≠ NMT_CMD_ID → msg.id ≠ SYNC_ID → msg.id ≠ LSS_REQ_ID →
      ((∃ p ∈ mb.rx_pdos, p.valid = true ∧ msg.id = p.cob_id) →
        ∃ rx2, storeRpdo mb.rx_pdos msg = some rx2 ∧
          mb.store_message msg = ({ mb with rx_pdos := rx2 }, none)) ∧
      (storeRpdo mb.rx_pdos msg = none →
        (∀ cob, mb.sdo_rx_cob_id = some cob → msg.id = cob →
          mb.store_message msg =
            ({ mb with sdo_comms := (mb.sdo_comms.handle_req msg.dat).2 }, some msg)) ∧
        ((∀ cob, mb.sdo_rx_cob_id = some cob → msg.id ≠ cob) →
          mb.store_message msg = (mb, some msg)))) := by
  have hids : NMT_CMD_ID ≠ SYNC_ID ∧ NMT_CMD_ID ≠ LSS_REQ_ID ∧ SYNC_ID ≠ LSS_REQ_ID := by
    decide
  refine ⟨?_, ?_, ?_, ?_⟩
  · intro h
    simp [NodeMbox.store_message, h]
  · intro h
    rw [NodeMbox.store_message]
    rw [if_neg (by rw [h]; exact hids.1.symm), if_pos h]
  · intro h
    have hn1 : msg.id ≠ NMT_CMD_ID := by rw [h]; exact hids.2.1.symm
    have hn2 : msg.id ≠ SYNC_ID := by rw [h]; exact hids.2.2.symm
    constructor
    · intro h8
      rw [NodeMbox.store_message]
      rw [if_neg hn1, if_neg hn2, if_pos h]
      simp [lssParse, h8]
    · intro h8
      rw [NodeMbox.store_message]
      rw [if_neg hn1, if_neg hn2, if_pos h]
      simp [lssParse, h8]
  · intro hn1 hn2 hn3
    constructor
    · intro hmatch
      obtain ⟨rx2, hrx2⟩ := storeRpdo_match mb.rx_pdos msg hmatch
      refine ⟨rx2, hrx2, ?_⟩
      rw [NodeMbox.store_message]
      rw [if_neg hn1, if_neg hn2, if_neg hn3]
      simp [hrx2]
    · intro hnone
      constructor
      · intro cob hcob hid
        rw [NodeMbox.store_message]
        rw [if_neg hn1, if_neg hn2, if_neg hn3]
        simp [hnone, hcob, hid]
      · intro hno
        rw [NodeMbox.store_message]
        rw [if_neg hn1, if_neg hn2, if_neg hn3]
        cases hcob : mb.sdo_rx_cob_id with
        | none => simp [hnone, hcob]
        | some cob => simp [hnone, hcob, hno cob hcob]

/-- Witness for C5's amended theorem: an NMT frame is consumed into the NMT
slot. -/
theorem C5_store_message_amended_witness :
    wMbox.store_message ⟨CanId.Std 0, [1, 1]⟩ =
      ({ wMbox with nmt_mbox := some ⟨CanId.Std 0, [1, 1]⟩ }, none) :=
  (C5_store_message_amended wMbox ⟨CanId.Std 0, [1, 1]⟩).1 rfl

/-! ### NMT lifecycle slice of `Node::process` (`zencan-node/src/node.rs`) -/

/-- Embeds `NmtState` (`zencan-common/src/nmt.rs`). -/
inductive NmtState where
  | Bootup | Stopped | Operational | PreOperational
deriving DecidableEq, Repr

/-- Modelled from the spec: `NmtCommandSpecifier` — the five NMT command
specifiers of §4.4. -/
inductive NmtCommandSpecifier where
  | Start | Stop | EnterPreOp | ResetApp | ResetComm
deriving DecidableEq, Repr

/-- Modelled from the spec: the CiA 301 numeric command specifiers of the
NMT command byte. -/
def parseNmtCs (b : Nat) : Option NmtCommandSpecifier :=
  if b = 1 then some NmtCommandSpecifier.Start
  else if b = 2 then some NmtCommandSpecifier.Stop
  else if b = 128 then some NmtCommandSpecifier.EnterPreOp
  else if b = 129 then some NmtCommandSpecifier.ResetApp
  else if b = 130 then some NmtCommandSpecifier.ResetComm
  else none

/-- Modelled from the spec: parsing an NMT command frame — a two-byte
payload `{cs, target}` (§4.4, §6). -/
def parseNmtCommand (d : List Nat) : Option (NmtCommandSpecifier × Nat) :=
  match d with
  | [cs, node] => (parseNmtCs cs).map (fun c => (c, node))
  | _ => none

/-- The observable effects of the embedded `Node` slice: the state-change
callbacks fired and the bootup actions. -/
inductive NodeEvent where
  | EnterOperational | EnterStopped | EnterPreOperational
  | ResetAppEvent | ResetCommEvent | BootUp
deriving DecidableEq, Repr

/-- The `Node` fields governing the NMT lifecycle, projected from
`struct Node`. -/
structure NodeCore where
  node_id : NodeId
  nmt_state : NmtState
  auto_start : Bool
  reassigned_node_id : Option NodeId
deriving DecidableEq, Repr

/-- Embeds `Node::enter_operational`. -/
def NodeCore.enter_operational (n : NodeCore) : NodeCore × List NodeEvent :=
  ({ n with nmt_state := NmtState.Operational }, [NodeEvent.EnterOperational])

/-- Embeds `Node::enter_stopped`. -/
def NodeCore.enter_stopped (n : NodeCore) : NodeCore × List NodeEvent :=
  ({ n with nmt_state := NmtState.Stopped }, [NodeEvent.EnterStopped])

/-- Embeds `Node::enter_preoperational`. -/
def NodeCore.enter_preoperational (n : NodeCore) : NodeCore × List NodeEvent :=
  ({ n with nmt_state := NmtState.PreOperational }, [NodeEvent.EnterPreOperational])

/-- Embeds `Node::reset_app`: PDO defaults and the `reset_app` callback
(as an event), then `Bootup`. -/
def NodeCore.reset_app (n : NodeCore) : NodeCore × List NodeEvent :=
  ({ n with nmt_state := NmtState.Bootup }, [NodeEvent.ResetAppEvent])

/-- Embeds `Node::reset_comm`. -/
def NodeCore.reset_comm (n : NodeCore) : NodeCore × List NodeEvent :=
  ({ n with nmt_state := NmtState.Bootup }, [NodeEvent.ResetCommEvent])

/-- Embeds `Node::handle_nmt_command`. -/
def NodeCore.handle_nmt_command (n : NodeCore) (cs : NmtCommandSpecifier) :
    NodeCore × List NodeEvent :=
  match cs with
  | NmtCommandSpecifier.Start => n.enter_operational
  | NmtCommandSpecifier.Stop => n.enter_stopped
  | NmtCommandSpecifier.EnterPreOp => n.enter_preoperational
  | NmtCommandSpecifier.ResetApp => n.reset_app
  | NmtCommandSpecifier.ResetComm => n.reset_comm

/-- Embeds the NMT-message step of `Node::process` (the `read_nmt_mbox`
block): a parsed command is applied iff the node has a configured ID and the
target is 0 or the node's own ID. -/
def NodeCore.processNmtMessage (n : NodeCore) (msg : Option CanMessage) :
    NodeCore × List NodeEvent :=
  match msg with
  | none => (n, [])
  | some m =>
    match parseNmtCommand m.dat with
    | none => (n, [])
    | some (cs, node) =>
      match n.node_id with
      | NodeId.Configured id =>
        if node = 0 ∨ node = id then n.handle_nmt_command cs
        else (n, [])
      | NodeId.Unconfigured => (n, [])

/-- The external inputs to one `process` call that can affect the NMT
lifecycle fields: a pending NMT frame and a pending LSS node-ID
assignment. -/
structure ProcessInputs where
  nmt_msg : Option CanMessage
  lss_assign : Option NodeId
deriving DecidableEq, Repr

/-- Embeds the deferred node-ID reassignment at the top of `Node::process`. -/
def NodeCore.applyReassign (n : NodeCore) : NodeCore :=
  match n.reassigned_node_id with
  | some newId =>
    { n with node_id := newId, nmt_state := NmtState.Bootup, reassigned_node_id := none }
  | none => n

/-- Embeds the Bootup pass of `Node::process`: `enter_preoperational` then
`boot_up` (LSS reconfiguration and, for a configured ID, the bootup
heartbeat — summarised as the `BootUp` event). -/
def NodeCore.bootupStep (n : NodeCore) : NodeCore × List NodeEvent :=
  if n.nmt_state = NmtState.Bootup then
    ({ n with nmt_state := NmtState.PreOperational },
      [NodeEvent.EnterPreOperational, NodeEvent.BootUp])
  else (n, [])

/-- Embeds the auto-start latch of `Node::process`: when the flag is set and
the node ID is configured, clear the flag and enter Operational.  The third
component records that the latch fired. -/
def NodeCore.autoStartStep (n : NodeCore) : NodeCore × List NodeEvent × Bool :=
  if n.auto_start = true ∧ n.node_id.is_configured = true then
    ({ n with auto_start := false, nmt_state := NmtState.Operational },
      [NodeEvent.EnterOperational], true)
  else (n, [], false)

/-- Embeds the LSS `ConfigureNodeId` event handling (`set_node_id`). -/
def NodeCore.lssStep (n : NodeCore) (assign : Option NodeId) : NodeCore :=
  match assign with
  | some nid => { n with reassigned_node_id := some nid }
  | none => n

/-- The NMT-lifecycle projection of one `Node::process` call, in source
order: deferred reassignment, Bootup pass, auto-start latch, NMT command,
LSS assignment.  (The SDO, storage, heartbeat and PDO steps do not touch
these fields.)  Returns the new core, the events fired, and whether the
auto-start latch fired. -/
def NodeCore.process_core (n : NodeCore) (inp : ProcessInputs) :
    NodeCore × List NodeEvent × Bool :=
  let n1 := n.applyReassign
  let s2 := n1.bootupStep
  let s3 := s2.1.autoStartStep
  let s4 := s3.1.processNmtMessage inp.nmt_msg
  let n5 := s4.1.lssStep inp.lss_assign
  (n5, s2.2 ++ s3.2.1 ++ s4.2, s3.2.2)

/-- Embeds the state of a freshly constructed `Node` (`Node::new` ends in
`reset_app`, leaving `Bootup`); `auto_start` holds the value read from the
auto-start object (0x5000 sub 0 non-zero). -/
def NodeCore.construct (node_id : NodeId) (auto_start : Bool) : NodeCore :=
  { node_id := node_id, nmt_state := NmtState.Bootup, auto_start := auto_start,
    reassigned_node_id := none }

/-- Run a sequence of `process` calls, recording for each whether the
auto-start latch fired. -/
def NodeCore.runTrace (n : NodeCore) : List ProcessInputs → List Bool
  | [] => []
  | inp :: rest =>
    let s := n.process_core inp
    s.2.2 :: s.1.runTrace rest

/-- Claim C7: a received NMT command `{cs, target}` is applied — the state
changed and the matching callback fired — iff the target is 0 or the node's
own (configured) ID; any other target leaves the node untouched. -/
theorem C7_nmt_target_filter (n : NodeCore) (id : Nat) (m : CanMessage)
    (cs : NmtCommandSpecifier) (target : Nat)
    (hid : n.node_id = NodeId.Configured id)
    (hparse : parseNmtCommand m.dat = some (cs, target)) :
    (target = 0 ∨ target = id →
      n.processNmtMessage (some m) = n.handle_nmt_command cs ∧
      (n.handle_nmt_command cs).2 =
        [(match cs with
          | NmtCommandSpecifier.Start => NodeEvent.EnterOperational
          | NmtCommandSpecifier.Stop => NodeEvent.EnterStopped
          | NmtCommandSpecifier.EnterPreOp => NodeEvent.EnterPreOperational
          | NmtCommandSpecifier.ResetApp => NodeEvent.ResetAppEvent
          | NmtCommandSpecifier.ResetComm => NodeEvent.ResetCommEvent)] ∧
      (n.handle_nmt_command cs).1.nmt_state =
        (match cs with
          | NmtCommandSpecifier.Start => NmtState.Operational
          | NmtCommandSpecifier.Stop => NmtState.Stopped
          | NmtCommandSpecifier.EnterPreOp => NmtState.PreOperational
          | NmtCommandSpecifier.ResetApp => NmtState.Bootup
          | NmtCommandSpecifier.ResetComm => NmtState.Bootup)) ∧
    (target ≠ 0 → target ≠ id →
      n.processNmtMessage (some m) = (n, [])) := by
  constructor
  · intro htgt
    refine ⟨?_, ?_, ?_⟩
    · simp [NodeCore.processNmtMessage, hparse, hid, htgt]
    · cases cs <;> rfl
    · cases cs <;> rfl
  · intro h0 hid2
    simp [NodeCore.processNmtMessage, hparse, hid, h0, hid2]

/-- Witness for C7: node 5 applies a broadcast Start command. -/
theorem C7_nmt_target_filter_witness :
    (⟨NodeId.Configured 5, NmtState.PreOperational, false, none⟩ : NodeCore).processNmtMessage
        (some ⟨CanId.Std 0, [1, 0]⟩) =
      (⟨NodeId.Configured 5, NmtState.PreOperational, false, none⟩ : NodeCore).handle_nmt_command
        NmtCommandSpecifier.Start ∧
    ((⟨NodeId.Configured 5, NmtState.PreOperational, false, none⟩ : NodeCore).handle_nmt_command
        NmtCommandSpecifier.Start).2 = [NodeEvent.EnterOperational] ∧
    ((⟨NodeId.Configured 5, NmtState.PreOperational, false, none⟩ : NodeCore).handle_nmt_command
        NmtCommandSpecifier.Start).1.nmt_state = NmtState.Operational :=
  (C7_nmt_target_filter ⟨NodeId.Configured 5, NmtState.PreOperational, false, none⟩ 5
    ⟨CanId.Std 0, [1, 0]⟩ NmtCommandSpecifier.Start 0 rfl (by decide)).1 (Or.inl rfl)

/-- Helper: `handle_nmt_command` never touches the auto-start latch. -/
lemma handle_nmt_auto (n : NodeCore) (cs : NmtCommandSpecifier) :
    (n.handle_nmt_command cs).1.auto_start = n.auto_start := by
  cases cs <;> rfl

/-- Helper: the NMT-message step never touches the auto-start latch. -/
lemma processNmt_auto (n : NodeCore) (m : Option CanMessage) :
    (n.processNmtMessage m).1.auto_start = n.auto_start := by
  unfold NodeCore.processNmtMessage
  cases m with
  | none => rfl
  | some m =>
    cases hp : parseNmtCommand m.dat with
    | none => simp [hp]
    | some p =>
      obtain ⟨cs, node⟩ := p
      cases hn : n.node_id with
      | Unconfigured => simp [hp, hn]
      | Configured id =>
        by_cases ht : node = 0 ∨ node = id
        · simp [hp, hn, ht, handle_nmt_auto]
        · simp [hp, hn, ht]

/-- Helper: reassignment never touches the auto-start latch. -/
lemma applyReassign_auto (n : NodeCore) : n.applyReassign.auto_start = n.auto_start := by
  unfold NodeCore.applyReassign
  cases h : n.reassigned_node_id <;> simp

/-- Helper: the Bootup pass never touches the auto-start latch. -/
lemma bootupStep_auto (n : NodeCore) : n.bootupStep.1.auto_start = n.auto_start := by
  unfold NodeCore.bootupStep
  split <;> rfl

/-- Helper: the LSS assignment never touches the auto-start latch. -/
lemma lssStep_auto (n : NodeCore) (a : Option NodeId) :
    (n.lssStep a).auto_start = n.auto_start := by
  unfold NodeCore.lssStep
  cases a <;> simp

/-- Helper: once the latch is clear, a `process` call neither fires it nor
sets it again. -/
lemma process_core_latch_clear (n : NodeCore) (inp : ProcessInputs)
    (h : n.auto_start = false) :
    (n.process_core inp).1.auto_start = false ∧ (n.process_core inp).2.2 = false := by
  unfold NodeCore.process_core
  have h1 : n.applyReassign.auto_start = false := by rw [applyReassign_auto, h]
  have h2 : n.applyReassign.bootupStep.1.auto_start = false := by rw [bootupStep_auto, h1]
  have h3 := n.applyReassign.bootupStep.1.autoStartStep
  unfold NodeCore.autoStartStep
  simp [h2, lssStep_auto, processNmt_auto]

/-- Helper: with the latch clear, no later `process` call ever fires it. -/
lemma runTrace_latch_clear (inps : List ProcessInputs) :
    ∀ (n : NodeCore), n.auto_start = false →
      n.runTrace inps = inps.map (fun _ => false) := by
  induction inps with
  | nil => intro n _; rfl
  | cons inp rest ih =>
    intro n h
    have hstep := process_core_latch_clear n inp h
    unfold NodeCore.runTrace
    show (n.process_core inp).2.2 :: (n.process_core inp).1.runTrace rest = _
    rw [hstep.2, ih _ hstep.1]
    simp

/-- Claim C9: a node constructed with a configured ID and the auto-start
object set fires the auto-start transition to Operational during its first
`process` call — after the Bootup pass — and never again over any
subsequent sequence of `process` calls, NMT commands (including ResetApp
and ResetComm) and LSS assignments. -/
theorem C9_auto_start_once (id : Nat) (inp0 : ProcessInputs) (inps : List ProcessInputs) :
    NodeCore.runTrace (NodeCore.construct (NodeId.Configured id) true) (inp0 :: inps) =
      true :: inps.map (fun _ => false) ∧
    NodeEvent.EnterOperational ∈
      ((NodeCore.construct (NodeId.Configured id) true).process_core inp0).2.1 := by
  have hfirst : ((NodeCore.construct (NodeId.Configured id) true).process_core inp0).2.2
      = true := by
    simp [NodeCore.process_core, NodeCore.construct, NodeCore.applyReassign,
      NodeCore.bootupStep, NodeCore.autoStartStep, NodeId.is_configured]
  have hclear : ((NodeCore.construct (NodeId.Configured id) true).process_core inp0).1.auto_start
      = false := by
    simp [NodeCore.process_core, NodeCore.construct, NodeCore.applyReassign,
      NodeCore.bootupStep, NodeCore.autoStartStep, NodeId.is_configured,
      processNmt_auto, lssStep_auto]
  constructor
  · unfold NodeCore.runTrace
    show ((NodeCore.construct (NodeId.Configured id) true).process_core inp0).2.2 ::
      ((NodeCore.construct (NodeId.Configured id) true).process_core inp0).1.runTrace inps = _
    rw [hfirst, runTrace_latch_clear inps _ hclear]
  · simp [NodeCore.process_core, NodeCore.construct, NodeCore.applyReassign,
      NodeCore.bootupStep, NodeCore.autoStartStep, NodeId.is_configured]
